import Mathlib

/-!
Verification development for the Cosmos algorithmic reverberator
(`Source/DSP/*.h`).  The DSP core is shallowly embedded over `ℝ`:
delay-line buffers become `List ℝ`, fixed C++ arrays become functions out
of `ℕ` (or `Fin n`), per-sample loops become explicit iteration of step
functions, and the non-deterministic entropy source feeding the drift
targets of the modulation engine becomes an explicit stream parameter.
`float`/`double` arithmetic is modelled by exact real arithmetic;
`static_cast<int>` is modelled by truncation toward zero.
-/

noncomputable section

namespace Cosmos

/-- Models `juce::jlimit (lower, upper, value)`:
`value < lower ? lower : (upper < value ? upper : value)`. -/
def jlimit {α : Type*} [LinearOrder α] (lo hi v : α) : α :=
  if v < lo then lo else if hi < v then hi else v

/-- Models `juce::jmax (a, b)`: `a < b ? b : a`. -/
def jmax {α : Type*} [LinearOrder α] (a b : α) : α :=
  if a < b then b else a

/-- Models C++ `static_cast<int>` applied to a floating-point value:
truncation toward zero. -/
def cppInt (x : ℝ) : ℤ :=
  if x < 0 then ⌈x⌉ else ⌊x⌋

/-- Iterate a loop body over indices `0, 1, …, n-1` in ascending order,
threading a state: models `for (int i = 0; i < n; ++i)`. -/
def iterUpTo {σ : Type*} (f : ℕ → σ → σ) : ℕ → σ → σ
  | 0, s => s
  | n + 1, s => f n (iterUpTo f n s)

--==============================================================================
-- Source/DSP/CombFilter.h — class CombFilter
--==============================================================================

/-- State of `Cosmos::CombFilter` (Source/DSP/CombFilter.h): a delay buffer,
a write index, the clamp bound `maxDelay`, the delay/feedback/damping
parameters and the one-pole damping filter state. -/
structure CombFilter where
  buffer : List ℝ
  writeIndex : ℕ
  maxDelay : ℕ
  currentDelay : ℝ
  feedback : ℝ
  damping : ℝ
  filterState : ℝ
  sampleRate : ℝ

/-- Default-constructed `CombFilter` (the C++ in-class member initializers). -/
def CombFilter.default : CombFilter :=
  { buffer := [], writeIndex := 0, maxDelay := 0, currentDelay := 1000,
    feedback := 0.7, damping := 0.3, filterState := 0, sampleRate := 44100 }

/-- Models `CombFilter::prepare`: allocate `maxDelaySamples + 4` zeroed
samples and clear the scalar state. -/
def CombFilter.prepare (c : CombFilter) (sr : ℝ) (maxDelaySamples : ℕ) : CombFilter :=
  { c with sampleRate := sr, maxDelay := maxDelaySamples,
           buffer := List.replicate (maxDelaySamples + 4) 0,
           writeIndex := 0, filterState := 0 }

/-- Models `CombFilter::reset`: zero the buffer contents in place
(`std::fill`), the write index and the damping filter state. -/
def CombFilter.reset (c : CombFilter) : CombFilter :=
  { c with buffer := List.replicate c.buffer.length 0,
           writeIndex := 0, filterState := 0 }

/-- Models `CombFilter::setDelayTime`. -/
def CombFilter.setDelayTime (c : CombFilter) (delaySamples : ℝ) : CombFilter :=
  { c with currentDelay := jlimit 1 (c.maxDelay : ℝ) delaySamples }

/-- Models `CombFilter::setFeedback`. -/
def CombFilter.setFeedback (c : CombFilter) (fb : ℝ) : CombFilter :=
  { c with feedback := jlimit 0 0.999 fb }

/-- Models `CombFilter::setDamping`. -/
def CombFilter.setDamping (c : CombFilter) (damp : ℝ) : CombFilter :=
  { c with damping := jlimit 0 0.999 damp }

/-- The interpolated delay-line read shared by `CombFilter::process` and
`CombFilter::processModulated` (lines 56-66 and 85-94 of CombFilter.h):
compute `readPos = writeIndex - delay`, wrap once if negative, and linearly
interpolate between the two neighbouring stored samples. -/
def CombFilter.readInterpolated (c : CombFilter) (delay : ℝ) : ℝ :=
  let readPos : ℝ := (c.writeIndex : ℝ) - delay
  let readPos := if readPos < 0 then readPos + (c.buffer.length : ℝ) else readPos
  let readIndex0 : ℤ := cppInt readPos
  let readIndex1 : ℤ := (readIndex0 + 1).tmod (c.buffer.length : ℤ)
  let frac : ℝ := readPos - (readIndex0 : ℝ)
  c.buffer.getD readIndex0.toNat 0 * (1 - frac)
    + c.buffer.getD readIndex1.toNat 0 * frac

/-- Models `CombFilter::process`: read the delayed sample at `currentDelay`,
run the one-pole damping lowpass on it, write `input + filterState*feedback`
back into the delay line, advance the write index, return the delayed
sample. -/
def CombFilter.process (c : CombFilter) (input : ℝ) : CombFilter × ℝ :=
  let delayed := c.readInterpolated c.currentDelay
  let fs := delayed * (1 - c.damping) + c.filterState * c.damping
  ({ c with filterState := fs,
            buffer := c.buffer.set c.writeIndex (input + fs * c.feedback),
            writeIndex := (c.writeIndex + 1) % c.buffer.length },
   delayed)

/-- Models `CombFilter::processModulated`: identical to `process` except the
read delay is `jlimit 1 maxDelay (currentDelay + modOffset)` for this call
only. -/
def CombFilter.processModulated (c : CombFilter) (input modOffset : ℝ) : CombFilter × ℝ :=
  let modulatedDelay := jlimit 1 (c.maxDelay : ℝ) (c.currentDelay + modOffset)
  let delayed := c.readInterpolated modulatedDelay
  let fs := delayed * (1 - c.damping) + c.filterState * c.damping
  ({ c with filterState := fs,
            buffer := c.buffer.set c.writeIndex (input + fs * c.feedback),
            writeIndex := (c.writeIndex + 1) % c.buffer.length },
   delayed)

--==============================================================================
-- Source/DSP/AllpassFilter.h — class AllpassFilter
--==============================================================================

/-- State of `Cosmos::AllpassFilter` (Source/DSP/AllpassFilter.h). -/
structure AllpassFilter where
  buffer : List ℝ
  writeIndex : ℕ
  maxDelay : ℕ
  currentDelay : ℝ
  feedback : ℝ
  sampleRate : ℝ

/-- Default-constructed `AllpassFilter` (the C++ in-class member
initializers). -/
def AllpassFilter.default : AllpassFilter :=
  { buffer := [], writeIndex := 0, maxDelay := 0, currentDelay := 100,
    feedback := 0.5, sampleRate := 44100 }

/-- Models `AllpassFilter::prepare`. -/
def AllpassFilter.prepare (a : AllpassFilter) (sr : ℝ) (maxDelaySamples : ℕ) : AllpassFilter :=
  { a with sampleRate := sr, maxDelay := maxDelaySamples,
           buffer := List.replicate (maxDelaySamples + 4) 0, writeIndex := 0 }

/-- Models `AllpassFilter::reset`. -/
def AllpassFilter.reset (a : AllpassFilter) : AllpassFilter :=
  { a with buffer := List.replicate a.buffer.length 0, writeIndex := 0 }

/-- Models `AllpassFilter::setDelayTime`. -/
def AllpassFilter.setDelayTime (a : AllpassFilter) (delaySamples : ℝ) : AllpassFilter :=
  { a with currentDelay := jlimit 1 (a.maxDelay : ℝ) delaySamples }

/-- Models `AllpassFilter::setFeedback`. -/
def AllpassFilter.setFeedback (a : AllpassFilter) (fb : ℝ) : AllpassFilter :=
  { a with feedback := jlimit (-0.99) 0.99 fb }

/-- The interpolated delay-line read shared by `AllpassFilter::process` and
`AllpassFilter::processModulated` (lines 49-58 and 75-84 of
AllpassFilter.h). -/
def AllpassFilter.readInterpolated (a : AllpassFilter) (delay : ℝ) : ℝ :=
  let readPos : ℝ := (a.writeIndex : ℝ) - delay
  let readPos := if readPos < 0 then readPos + (a.buffer.length : ℝ) else readPos
  let readIndex0 : ℤ := cppInt readPos
  let readIndex1 : ℤ := (readIndex0 + 1).tmod (a.buffer.length : ℤ)
  let frac : ℝ := readPos - (readIndex0 : ℝ)
  a.buffer.getD readIndex0.toNat 0 * (1 - frac)
    + a.buffer.getD readIndex1.toNat 0 * frac

/-- Models `AllpassFilter::process`:
`output = -feedback*input + delayed`; `write (input + feedback*delayed)`. -/
def AllpassFilter.process (a : AllpassFilter) (input : ℝ) : AllpassFilter × ℝ :=
  let delayed := a.readInterpolated a.currentDelay
  let output := -a.feedback * input + delayed
  ({ a with buffer := a.buffer.set a.writeIndex (input + a.feedback * delayed),
            writeIndex := (a.writeIndex + 1) % a.buffer.length },
   output)

/-- Models `AllpassFilter::processModulated`: same structure with the read
delay `jlimit 1 maxDelay (currentDelay + modOffset)` for this call only. -/
def AllpassFilter.processModulated (a : AllpassFilter) (input modOffset : ℝ) : AllpassFilter × ℝ :=
  let modulatedDelay := jlimit 1 (a.maxDelay : ℝ) (a.currentDelay + modOffset)
  let delayed := a.readInterpolated modulatedDelay
  let output := -a.feedback * input + delayed
  ({ a with buffer := a.buffer.set a.writeIndex (input + a.feedback * delayed),
            writeIndex := (a.writeIndex + 1) % a.buffer.length },
   output)

--==============================================================================
-- juce::AudioBuffer and juce::dsp IIR filters (external collaborators)
--==============================================================================

/-- Models `juce::AudioBuffer<float>`: a channel count, a sample count and
the stored samples. -/
structure AudioBuffer where
  numChannels : ℕ
  numSamples : ℕ
  data : ℕ → ℕ → ℝ

/-- Models `AudioBuffer::getSample`. -/
def AudioBuffer.getSample (b : AudioBuffer) (ch i : ℕ) : ℝ := b.data ch i

/-- Models `AudioBuffer::setSample`. -/
def AudioBuffer.setSample (b : AudioBuffer) (ch i : ℕ) (v : ℝ) : AudioBuffer :=
  { b with data := fun c j => if c = ch ∧ j = i then v else b.data c j }

/-- Normalized second-order IIR (biquad) coefficients, as stored by
`juce::dsp::IIR::Coefficients<float>` after dividing through by `a0`. -/
structure BiquadCoeffs where
  b0 : ℝ
  b1 : ℝ
  b2 : ℝ
  a1 : ℝ
  a2 : ℝ

/-- Models `juce::Decibels::decibelsToGain` (default -100 dB silence
floor): `decibels > -100 ? 10^(decibels*0.05) : 0`. -/
def decibelsToGain (db : ℝ) : ℝ :=
  if -100 < db then Real.rpow 10 (db * 0.05) else 0

/-- Modelled from the spec: the external library filter-design routine
`juce::dsp::IIR::Coefficients<float>::makeLowPass (sampleRate, freq, Q)`
(the library source is outside this repository).  A standard
bilinear-transform second-order low-pass; no claim depends on the numeric
coefficient values, only on the biquad state update that consumes them. -/
def makeLowPass (sr freq q : ℝ) : BiquadCoeffs :=
  let w := 2 * Real.pi * freq / sr
  let alpha := Real.sin w / (2 * q)
  let c := Real.cos w
  let a0 := 1 + alpha
  ⟨((1 - c) / 2) / a0, (1 - c) / a0, ((1 - c) / 2) / a0, (-2 * c) / a0, (1 - alpha) / a0⟩

/-- Modelled from the spec: the external library routine
`juce::dsp::IIR::Coefficients<float>::makeHighPass` (outside this
repository); standard second-order high-pass. -/
def makeHighPass (sr freq q : ℝ) : BiquadCoeffs :=
  let w := 2 * Real.pi * freq / sr
  let alpha := Real.sin w / (2 * q)
  let c := Real.cos w
  let a0 := 1 + alpha
  ⟨((1 + c) / 2) / a0, (-(1 + c)) / a0, ((1 + c) / 2) / a0, (-2 * c) / a0, (1 - alpha) / a0⟩

/-- Modelled from the spec: the external library routine
`juce::dsp::IIR::Coefficients<float>::makeBandPass` (outside this
repository); standard second-order band-pass. -/
def makeBandPass (sr freq q : ℝ) : BiquadCoeffs :=
  let w := 2 * Real.pi * freq / sr
  let alpha := Real.sin w / (2 * q)
  let c := Real.cos w
  let a0 := 1 + alpha
  ⟨alpha / a0, 0, (-alpha) / a0, (-2 * c) / a0, (1 - alpha) / a0⟩

/-- Modelled from the spec: the external library routine
`juce::dsp::IIR::Coefficients<float>::makeLowShelf` (outside this
repository); standard second-order low shelf with linear `gain`. -/
def makeLowShelf (sr freq q gain : ℝ) : BiquadCoeffs :=
  let w := 2 * Real.pi * freq / sr
  let alpha := Real.sin w / (2 * q)
  let c := Real.cos w
  let bigA := Real.sqrt gain
  let a0 := (bigA + 1) + (bigA - 1) * c + 2 * Real.sqrt bigA * alpha
  ⟨bigA * ((bigA + 1) - (bigA - 1) * c + 2 * Real.sqrt bigA * alpha) / a0,
   2 * bigA * ((bigA - 1) - (bigA + 1) * c) / a0,
   bigA * ((bigA + 1) - (bigA - 1) * c - 2 * Real.sqrt bigA * alpha) / a0,
   (-2 * ((bigA - 1) + (bigA + 1) * c)) / a0,
   ((bigA + 1) + (bigA - 1) * c - 2 * Real.sqrt bigA * alpha) / a0⟩

/-- Models `juce::dsp::ProcessorDuplicator<IIR::Filter<float>,
IIR::Coefficients<float>>`: shared biquad coefficients plus one
transposed-direct-form-II state pair per channel. -/
structure Duplicator where
  coeffs : BiquadCoeffs
  s1 : ℕ → ℝ
  s2 : ℕ → ℝ

/-- Default-constructed duplicated filter.  The library leaves the
coefficients unspecified before `prepare`; we take the identity biquad.
No claim depends on this choice. -/
def Duplicator.default : Duplicator :=
  ⟨⟨1, 0, 0, 0, 0⟩, fun _ => 0, fun _ => 0⟩

/-- Models `reset()` on the duplicated filter: zero the filter state,
keep the coefficients. -/
def Duplicator.reset (f : Duplicator) : Duplicator :=
  { f with s1 := fun _ => 0, s2 := fun _ => 0 }

/-- One sample of the transposed-direct-form-II biquad on channel `ch`
(`juce::dsp::IIR::Filter::processSample`). -/
def Duplicator.step (f : Duplicator) (ch : ℕ) (x : ℝ) : Duplicator × ℝ :=
  let y := f.coeffs.b0 * x + f.s1 ch
  ({ f with
      s1 := Function.update f.s1 ch (f.coeffs.b1 * x + f.s2 ch - f.coeffs.a1 * y),
      s2 := Function.update f.s2 ch (f.coeffs.b2 * x - f.coeffs.a2 * y) },
   y)

/-- One sample of `Duplicator.processBlock` at channel `ch`, sample `i`. -/
def Duplicator.sampleStep (ch i : ℕ) (s : Duplicator × AudioBuffer) : Duplicator × AudioBuffer :=
  let r := s.1.step ch (s.2.getSample ch i)
  (r.1, s.2.setSample ch i r.2)

/-- Models `filter.process (juce::dsp::ProcessContextReplacing (block))`:
each channel of the block is run in place through its own filter
instance. -/
def Duplicator.processBlock (f : Duplicator) (buf : AudioBuffer) : Duplicator × AudioBuffer :=
  iterUpTo (fun ch s => iterUpTo (Duplicator.sampleStep ch) buf.numSamples s)
    buf.numChannels (f, buf)

--==============================================================================
-- Source/DSP/ModulationEngine.h — class ModulationEngine
--==============================================================================

/-- The constant `goldenRatio = 1.618033988749895` of
ModulationEngine.h. -/
def goldPhi : ℝ := 1.618033988749895

/-- Models `juce::MathConstants<float>::twoPi`. -/
def twoPi : ℝ := 2 * Real.pi

/-- Models `ModulationEngine::getLFOValue`'s waveform switch on
`lfoIndex % 4`, applied to a phase value: sine, cubic-smoothed triangle,
sine plus 2nd/3rd harmonics, asymmetric sine. -/
def lfoWave (lfoIndex : ℕ) (phase : ℝ) : ℝ :=
  match lfoIndex % 4 with
  | 0 => Real.sin phase
  | 1 =>
    let tri := if phase < Real.pi then 2 * phase / Real.pi - 1 else 3 - 2 * phase / Real.pi
    tri * tri * tri * 0.5 + tri * 0.5
  | 2 => Real.sin phase * 0.7 + Real.sin (phase * 2) * 0.2 + Real.sin (phase * 3) * 0.1
  | _ =>
    let s := Real.sin phase
    s * (1 + 0.3 * s * s)

/-- Models `ModulationEngine::getMixWeight`: deterministic prime-derived
mixing weight for output/LFO index pair, attenuated by 12% per LFO
index. -/
def getMixWeight (outputIndex lfoIndex : ℕ) : ℝ :=
  let seed : ℤ :=
    [7, 11, 13, 17, 19, 23, 29, 31].getD (outputIndex % 8) 0 * ((lfoIndex : ℤ) + 1)
      + (outputIndex : ℤ)
  let weight : ℝ := ((seed.tmod 100 : ℤ) : ℝ) / 100 - 0.5
  weight * (1 - (lfoIndex : ℝ) * 0.12)

/-- State of `Cosmos::ModulationEngine` (Source/DSP/ModulationEngine.h):
6 LFOs, 8 smoothed outputs, drift random-walk values/targets and the
2-second drift retarget counter. -/
structure ModulationEngine where
  sampleRate : ℝ
  chaosAmount : ℝ
  maxDepthSamples : ℝ
  lfoPhases : Fin 6 → ℝ
  lfoFrequencies : Fin 6 → ℝ
  driftValues : Fin 8 → ℝ
  driftTargets : Fin 8 → ℝ
  smoothedOutputs : Fin 8 → ℝ
  driftCounter : ℕ

/-- Default-constructed `ModulationEngine` (the C++ in-class member
initializers; the `= {}` arrays are zero-initialized). -/
def ModulationEngine.default : ModulationEngine :=
  { sampleRate := 44100, chaosAmount := 0.3, maxDepthSamples := 40,
    lfoPhases := fun _ => 0, lfoFrequencies := fun _ => 0,
    driftValues := fun _ => 0, driftTargets := fun _ => 0,
    smoothedOutputs := fun _ => 0, driftCounter := 0 }

/-- Models `ModulationEngine::prepare`.  The `std::random_device`-seeded
initial phase offsets and the first `updateDriftTargets()` draw are
non-deterministic in the source (spec §9 requires an injectable random
source); they appear here as the explicit `phaseEntropy` / `driftEntropy`
arguments. -/
def ModulationEngine.prepare (m : ModulationEngine) (sr : ℝ)
    (phaseEntropy : Fin 6 → ℝ) (driftEntropy : Fin 8 → ℝ) : ModulationEngine :=
  { m with sampleRate := sr,
           lfoFrequencies := fun i => 0.23 * Real.rpow goldPhi ((i : ℝ) * 0.7),
           lfoPhases := fun i => (i : ℝ) * 0.37 + phaseEntropy i * 0.3,
           driftValues := fun _ => 0,
           driftTargets := driftEntropy }

/-- Models `ModulationEngine::reset`: re-spread the LFO phases and zero the
drift state and the smoothed outputs (the drift counter is not touched by
the source). -/
def ModulationEngine.reset (m : ModulationEngine) : ModulationEngine :=
  { m with lfoPhases := fun i => (i : ℝ) * 0.37,
           driftValues := fun _ => 0, driftTargets := fun _ => 0,
           smoothedOutputs := fun _ => 0 }

/-- Models `ModulationEngine::setChaos`: clamp to [0,1], map to base
frequency 0.15–0.65 Hz scaled by the golden-ratio ladder, and max depth
20–80 samples. -/
def ModulationEngine.setChaos (m : ModulationEngine) (chaos : ℝ) : ModulationEngine :=
  let c := jlimit 0 1 chaos
  { m with chaosAmount := c,
           lfoFrequencies := fun i => (0.15 + c * 0.5) * Real.rpow goldPhi ((i : ℝ) * 0.7),
           maxDepthSamples := 20 + c * 60 }

/-- Models `ModulationEngine::getModulation`: `0` for an index outside
`[0, 8)`, otherwise the smoothed output register for that index. -/
def ModulationEngine.getModulation (m : ModulationEngine) (outputIndex : ℤ) : ℝ :=
  if h : 0 ≤ outputIndex ∧ outputIndex < 8 then
    m.smoothedOutputs ⟨outputIndex.toNat, by omega⟩
  else 0

/-- Models `ModulationEngine::processSample`: advance all LFO phases
(wrapping once past 2π), advance the drift counter (retargeting from the
entropy source every `int (sampleRate*2)` samples), smooth the drift values
toward their targets, then recompute each smoothed output from the weighted
LFO mix plus the chaos-scaled drift, scaled by the max depth. -/
def ModulationEngine.processSample (m : ModulationEngine)
    (driftEntropy : Fin 8 → ℝ) : ModulationEngine :=
  let phases : Fin 6 → ℝ := fun i =>
    let p := m.lfoPhases i + m.lfoFrequencies i / m.sampleRate * twoPi
    if twoPi < p then p - twoPi else p
  let counter := m.driftCounter + 1
  let fire : Bool := cppInt (m.sampleRate * 2) < (counter : ℤ)
  let targets := if fire then driftEntropy else m.driftTargets
  let drifts : Fin 8 → ℝ := fun i =>
    m.driftValues i * 0.9999 + targets i * (1 - 0.9999)
  let outputs : Fin 8 → ℝ := fun out =>
    let modValue :=
      (∑ lfo : Fin 6, lfoWave lfo (phases lfo) * getMixWeight out lfo)
        + drifts out * m.chaosAmount * 0.3
    let modValue := modValue * m.maxDepthSamples
    m.smoothedOutputs out * 0.995 + modValue * (1 - 0.995)
  { m with lfoPhases := phases,
           driftCounter := if fire then 0 else counter,
           driftTargets := targets,
           driftValues := drifts,
           smoothedOutputs := outputs }

--==============================================================================
-- Source/DSP/DiffusionNetwork.h — class DiffusionNetwork
--==============================================================================

/-- Point update of a doubly-indexed (channel, unit) array of filter
states. -/
def upd2 {β : Type*} (f : ℕ → ℕ → β) (i j : ℕ) (v : β) : ℕ → ℕ → β :=
  fun a b => if a = i ∧ b = j then v else f a b

/-- The fixed diffusion delay schedule of DiffusionNetwork.h (ms). -/
def diffDelayTimesMs : ℕ → ℝ :=
  fun i => [1.3, 2.1, 3.4, 5.5, 8.9, 14.4, 23.3, 37.7].getD i 0

/-- State of `Cosmos::DiffusionNetwork` (Source/DSP/DiffusionNetwork.h):
8 allpass stages per channel (indexed `[channel][stage]`, meaningful for
channel < 2 and stage < 8), the low-mid emphasis shelf filter and the
thrust amount. -/
structure DiffusionNetwork where
  allpassFilters : ℕ → ℕ → AllpassFilter
  lowMidFilter : Duplicator
  sampleRate : ℝ
  thrustAmount : ℝ

/-- Default-constructed `DiffusionNetwork` (C++ member initializers). -/
def DiffusionNetwork.default : DiffusionNetwork :=
  { allpassFilters := fun _ _ => AllpassFilter.default,
    lowMidFilter := Duplicator.default, sampleRate := 44100, thrustAmount := 0.5 }

/-- Models `DiffusionNetwork::updateThrustFilter`: low-shelf boost of
`thrustAmount*6` dB at 400 Hz, Q 0.7. -/
def DiffusionNetwork.updateThrustFilter (d : DiffusionNetwork) : DiffusionNetwork :=
  { d with lowMidFilter := { d.lowMidFilter with
      coeffs := makeLowShelf d.sampleRate 400 0.7 (decibelsToGain (d.thrustAmount * 6)) } }

/-- Models `DiffusionNetwork::prepare`: per channel/stage, allocate the
sample-rate-scaled prime-spaced delays (+0.07 ms on channel 1) and set
feedback 0.5; then configure the thrust shelf. -/
def DiffusionNetwork.prepare (d : DiffusionNetwork) (sr : ℝ) : DiffusionNetwork :=
  ({ d with sampleRate := sr,
            allpassFilters := fun ch i =>
              if ch < 2 ∧ i < 8 then
                let offset : ℝ := if ch = 0 then 0 else 0.07
                let delaySamples := (cppInt ((diffDelayTimesMs i + offset) * sr / 1000)).toNat
                (((d.allpassFilters ch i).prepare sr (delaySamples + 100)).setDelayTime
                    (delaySamples : ℝ)).setFeedback 0.5
              else d.allpassFilters ch i }).updateThrustFilter

/-- Models `DiffusionNetwork::reset`. -/
def DiffusionNetwork.reset (d : DiffusionNetwork) : DiffusionNetwork :=
  { d with
    allpassFilters := fun ch i =>
      if ch < 2 ∧ i < 8 then (d.allpassFilters ch i).reset else d.allpassFilters ch i,
    lowMidFilter := d.lowMidFilter.reset }

/-- Models `DiffusionNetwork::setThrust`: clamp to [0,1]; set each stage's
feedback to `0.3 + 0.45t` plus a per-stage increment `(stage/8)*0.1`,
clamped to [0, 0.75]; reconfigure the thrust shelf. -/
def DiffusionNetwork.setThrust (d : DiffusionNetwork) (thrust : ℝ) : DiffusionNetwork :=
  let t := jlimit 0 1 thrust
  let baseFeedback := 0.3 + t * 0.45
  ({ d with thrustAmount := t,
            allpassFilters := fun ch i =>
              if ch < 2 ∧ i < 8 then
                (d.allpassFilters ch i).setFeedback
                  (jlimit 0 0.75 (baseFeedback + ((i : ℝ) / 8) * 0.1))
              else d.allpassFilters ch i }).updateThrustFilter

/-- Models `DiffusionNetwork::getActiveStages`:
`static_cast<int> (2 + thrustAmount * (NumStages - 2))`. -/
def DiffusionNetwork.getActiveStages (d : DiffusionNetwork) : ℤ :=
  cppInt (2 + d.thrustAmount * 6)

/-- One allpass stage applied to the running sample of one channel (the
innermost loop of `DiffusionNetwork::process`). -/
def DiffusionNetwork.stageStep (ch stage : ℕ) (s : DiffusionNetwork × ℝ) :
    DiffusionNetwork × ℝ :=
  let r := (s.1.allpassFilters ch stage).process s.2
  ({ s.1 with allpassFilters := upd2 s.1.allpassFilters ch stage r.1 }, r.2)

/-- One sample of one channel through the first `getActiveStages` stages
in fixed order.  (`activeStages` is computed once per block in the source;
it only reads `thrustAmount`, which `process` never writes, so the value
is the same at every sample of the block.) -/
def DiffusionNetwork.processChSample (d : DiffusionNetwork) (ch : ℕ) (x : ℝ) :
    DiffusionNetwork × ℝ :=
  iterUpTo (DiffusionNetwork.stageStep ch) d.getActiveStages.toNat (d, x)

/-- One sample of the per-channel loop of `DiffusionNetwork::process`. -/
def DiffusionNetwork.sampleStep (ch i : ℕ) (s : DiffusionNetwork × AudioBuffer) :
    DiffusionNetwork × AudioBuffer :=
  let r := s.1.processChSample ch (s.2.getSample ch i)
  (r.1, s.2.setSample ch i r.2)

/-- Models `DiffusionNetwork::process`: for each channel (up to 2) and
sample, pass serially through the active allpass stages; then, when
`thrustAmount > 0.01`, run the low-mid shelf over the whole block. -/
def DiffusionNetwork.process (d : DiffusionNetwork) (buf : AudioBuffer) :
    DiffusionNetwork × AudioBuffer :=
  let core := iterUpTo (fun ch s => iterUpTo (DiffusionNetwork.sampleStep ch) buf.numSamples s)
      (min buf.numChannels 2) (d, buf)
  if 0.01 < core.1.thrustAmount then
    let r := core.1.lowMidFilter.processBlock core.2
    ({ core.1 with lowMidFilter := r.1 }, r.2)
  else core

--==============================================================================
-- Source/DSP/FairingSeparation.h — class FairingSeparation
--==============================================================================

/-- State of `Cosmos::FairingSeparation` (Source/DSP/FairingSeparation.h):
the tempo-sync parameters, the phase/active/envelope state machine, the
alternating sweep direction, the swept bandpass filter and the short
stereo-widening delay. -/
structure FairingSeparation where
  sampleRate : ℝ
  currentBPM : ℝ
  syncBeats : ℝ
  isActive : Bool
  currentPhase : ℝ
  gainEnvelope : ℝ
  sweepDirection : ℤ
  lastSweepDirection : ℤ
  bandpassFilter : Duplicator
  delayBuffer : Fin 2 → List ℝ
  delayWriteIndex : ℕ

/-- Default-constructed `FairingSeparation` (C++ member initializers). -/
def FairingSeparation.default : FairingSeparation :=
  { sampleRate := 44100, currentBPM := 120, syncBeats := 4, isActive := false,
    currentPhase := 0, gainEnvelope := 0, sweepDirection := 1,
    lastSweepDirection := -1, bandpassFilter := Duplicator.default,
    delayBuffer := fun _ => [], delayWriteIndex := 0 }

/-- Models `FairingSeparation::setSyncBeats`. -/
def FairingSeparation.setSyncBeats (f : FairingSeparation) (beats : ℝ) : FairingSeparation :=
  { f with syncBeats := jlimit 1 8 beats }

/-- Models `FairingSeparation::setBPM`. -/
def FairingSeparation.setBPM (f : FairingSeparation) (bpm : ℝ) : FairingSeparation :=
  { f with currentBPM := jmax 20 bpm }

/-- Models `FairingSeparation::trigger`: only when not already active,
activate, reset the phase and alternate the sweep direction. -/
def FairingSeparation.trigger (f : FairingSeparation) : FairingSeparation :=
  if f.isActive then f
  else
    let dir : ℤ := if 0 < f.lastSweepDirection then -1 else 1
    { f with isActive := true, currentPhase := 0,
             sweepDirection := dir, lastSweepDirection := dir }

/-- Models `FairingSeparation::release`: a no-op (the effect decays
naturally). -/
def FairingSeparation.release (f : FairingSeparation) : FairingSeparation := f

/-- Models `FairingSeparation::getIsActive`. -/
def FairingSeparation.getIsActive (f : FairingSeparation) : Bool := f.isActive

/-- Models `FairingSeparation::getIntensity`. -/
def FairingSeparation.getIntensity (f : FairingSeparation) : ℝ := f.gainEnvelope

/-- Models `FairingSeparation::reset`. -/
def FairingSeparation.reset (f : FairingSeparation) : FairingSeparation :=
  { f with bandpassFilter := f.bandpassFilter.reset,
           delayBuffer := fun ch => List.replicate (f.delayBuffer ch).length 0,
           delayWriteIndex := 0, currentPhase := 0, isActive := false,
           gainEnvelope := 0 }

/-- One per-sample update of the Fairing Separation phase / state-machine /
envelope fields, from `FairingSeparation::process` (lines 104-145): the
phase increment `1 / (syncBeats / (BPM/60) * sampleRate)` computed at block
entry, the phase advance with saturation at 1 (which deactivates the
effect), the attack(10%)-sustain-release(30%) target envelope, and the
0.999 exponential envelope smoothing.  The audio-path work of the same
loop (delay widening, bandpass sweep, gain) writes none of these fields
and is not needed by the claims about them. -/
def FairingSeparation.sampleUpdate (f : FairingSeparation) : FairingSeparation :=
  let beatsPerSecond := f.currentBPM / 60
  let durationSeconds := f.syncBeats / beatsPerSecond
  let durationSamples := durationSeconds * f.sampleRate
  let phaseIncrement := 1 / durationSamples
  let pa : ℝ × Bool :=
    if f.isActive then
      let p := f.currentPhase + phaseIncrement
      if 1 ≤ p then (1, false) else (p, true)
    else (f.currentPhase, f.isActive)
  let targetEnvelope : ℝ :=
    if pa.2 then
      if pa.1 < 0.1 then pa.1 / 0.1
      else if pa.1 < 0.7 then 1
      else (1 - pa.1) / 0.3
    else 0
  { f with currentPhase := pa.1, isActive := pa.2,
           gainEnvelope := f.gainEnvelope * 0.999 + targetEnvelope * 0.001 }

--==============================================================================
-- Source/DSP/AlgorithmicReverb.h — class AlgorithmicReverb
--==============================================================================

/-- The fixed comb delay schedule of AlgorithmicReverb.h (ms), chosen for
density without flutter echo. -/
def combDelayTimesMs : ℕ → ℝ :=
  fun i => [29.7, 37.1, 41.1, 43.7, 47.3, 53.0, 59.3, 67.1].getD i 0

/-- State of `Cosmos::AlgorithmicReverb` (Source/DSP/AlgorithmicReverb.h):
pre-delay lines, the diffusion network, the 2×8 comb bank (indexed
`[channel][unit]`, meaningful for channel < 2 and unit < 8), the
modulation engine, the two tone filters, the scalar parameters and the
decay-envelope visualization register. -/
structure AlgorithmicReverb where
  sampleRate : ℝ
  blockSize : ℕ
  preDelayBuffer : Fin 2 → List ℝ
  preDelayWriteIndex : ℕ
  preDelaySamples : ℤ
  diffusionNetwork : DiffusionNetwork
  combFilters : ℕ → ℕ → CombFilter
  modulationEngine : ModulationEngine
  highCutFilter : Duplicator
  lowCutFilter : Duplicator
  decayTime : ℝ
  highCutFreq : ℝ
  lowCutFreq : ℝ
  width : ℝ
  decayEnvelope : ℝ

/-- Default-constructed `AlgorithmicReverb` (C++ member initializers). -/
def AlgorithmicReverb.default : AlgorithmicReverb :=
  { sampleRate := 44100, blockSize := 512, preDelayBuffer := fun _ => [],
    preDelayWriteIndex := 0, preDelaySamples := 0,
    diffusionNetwork := DiffusionNetwork.default,
    combFilters := fun _ _ => CombFilter.default,
    modulationEngine := ModulationEngine.default,
    highCutFilter := Duplicator.default, lowCutFilter := Duplicator.default,
    decayTime := 5, highCutFreq := 12000, lowCutFreq := 80, width := 1,
    decayEnvelope := 0 }

/-- Models `AlgorithmicReverb::updateFilters`: install Butterworth-Q
(0.707) low-pass / high-pass coefficients at the current cut frequencies
(`*filter.state = *make…` replaces the shared coefficients only). -/
def AlgorithmicReverb.updateFilters (r : AlgorithmicReverb) : AlgorithmicReverb :=
  { r with
    highCutFilter := { r.highCutFilter with
      coeffs := makeLowPass r.sampleRate r.highCutFreq 0.707 },
    lowCutFilter := { r.lowCutFilter with
      coeffs := makeHighPass r.sampleRate r.lowCutFreq 0.707 } }

/-- Models `AlgorithmicReverb::updateDecay`: per channel and comb unit,
derive the RT60 feedback `10^(-3*delaySeconds/decayTime)` clamped to
[0, 0.998] (then stored through `CombFilter::setFeedback`) and the
high-cut-derived damping `clamp ((1-(highCut-1000)/19000)*0.7, 0, 0.7)`. -/
def AlgorithmicReverb.updateDecay (r : AlgorithmicReverb) : AlgorithmicReverb :=
  { r with combFilters := fun ch i =>
      if ch < 2 ∧ i < 8 then
        let delayMs := combDelayTimesMs i + (if ch = 0 then 0 else 1.7)
        let delaySeconds := delayMs / 1000
        let feedback := jlimit 0 0.998 (Real.rpow 10 (-3 * delaySeconds / r.decayTime))
        let dampingAmount := jlimit 0 0.7 ((1 - (r.highCutFreq - 1000) / 19000) * 0.7)
        ((r.combFilters ch i).setFeedback feedback).setDamping dampingAmount
      else r.combFilters ch i }

/-- Models `AlgorithmicReverb::prepare` (entropy for the modulation
engine's non-deterministic seeding passed explicitly, spec §9). -/
def AlgorithmicReverb.prepare (r : AlgorithmicReverb) (sr : ℝ) (maxBlockSize : ℕ)
    (phaseEntropy : Fin 6 → ℝ) (driftEntropy : Fin 8 → ℝ) : AlgorithmicReverb :=
  (({ r with
      sampleRate := sr, blockSize := maxBlockSize,
      preDelayBuffer := fun _ => List.replicate (cppInt (0.5 * sr)).toNat 0,
      preDelayWriteIndex := 0,
      diffusionNetwork := r.diffusionNetwork.prepare sr,
      combFilters := fun ch i =>
        if ch < 2 ∧ i < 8 then
          let offset : ℝ := if ch = 0 then 0 else 1.7
          let delaySamples := (cppInt ((combDelayTimesMs i + offset) * sr / 1000)).toNat
          ((r.combFilters ch i).prepare sr (delaySamples + 200)).setDelayTime (delaySamples : ℝ)
        else r.combFilters ch i,
      modulationEngine := r.modulationEngine.prepare sr phaseEntropy driftEntropy,
      highCutFilter := r.highCutFilter.reset,
      lowCutFilter := r.lowCutFilter.reset }).updateFilters).updateDecay

/-- Models `AlgorithmicReverb::reset`: zero the pre-delay buffers in place,
reset every comb unit, the diffusion network, the modulation engine and
both tone filters.  (`decayEnvelope` is not written by the source.) -/
def AlgorithmicReverb.reset (r : AlgorithmicReverb) : AlgorithmicReverb :=
  { r with
    preDelayBuffer := fun ch => List.replicate ((r.preDelayBuffer ch).length) 0,
    combFilters := fun ch i =>
      if ch < 2 ∧ i < 8 then (r.combFilters ch i).reset else r.combFilters ch i,
    preDelayWriteIndex := 0,
    diffusionNetwork := r.diffusionNetwork.reset,
    modulationEngine := r.modulationEngine.reset,
    highCutFilter := r.highCutFilter.reset,
    lowCutFilter := r.lowCutFilter.reset }

/-- Models `AlgorithmicReverb::setDecay`. -/
def AlgorithmicReverb.setDecay (r : AlgorithmicReverb) (decaySeconds : ℝ) : AlgorithmicReverb :=
  ({ r with decayTime := jlimit 0.5 30 decaySeconds }).updateDecay

/-- Models `AlgorithmicReverb::setPreDelay`. -/
def AlgorithmicReverb.setPreDelay (r : AlgorithmicReverb) (preDelayMs : ℝ) : AlgorithmicReverb :=
  let p : ℤ := cppInt (preDelayMs * r.sampleRate / 1000)
  { r with preDelaySamples := jlimit 0 (((r.preDelayBuffer 0).length : ℤ) - 1) p }

/-- Models `AlgorithmicReverb::setHighCut`. -/
def AlgorithmicReverb.setHighCut (r : AlgorithmicReverb) (freqHz : ℝ) : AlgorithmicReverb :=
  ({ r with highCutFreq := jlimit 1000 20000 freqHz }).updateFilters

/-- Models `AlgorithmicReverb::setLowCut`. -/
def AlgorithmicReverb.setLowCut (r : AlgorithmicReverb) (freqHz : ℝ) : AlgorithmicReverb :=
  ({ r with lowCutFreq := jlimit 20 500 freqHz }).updateFilters

/-- Models `AlgorithmicReverb::setWidth`. -/
def AlgorithmicReverb.setWidth (r : AlgorithmicReverb) (w : ℝ) : AlgorithmicReverb :=
  { r with width := jlimit 0 2 w }

/-- Models `AlgorithmicReverb::setDiffusionThrust`. -/
def AlgorithmicReverb.setDiffusionThrust (r : AlgorithmicReverb) (thrust : ℝ) : AlgorithmicReverb :=
  { r with diffusionNetwork := r.diffusionNetwork.setThrust thrust }

/-- Models `AlgorithmicReverb::setModulationChaos`. -/
def AlgorithmicReverb.setModulationChaos (r : AlgorithmicReverb) (chaos : ℝ) : AlgorithmicReverb :=
  { r with modulationEngine := r.modulationEngine.setChaos chaos }

/-- Models `AlgorithmicReverb::getDecayEnvelope`. -/
def AlgorithmicReverb.getDecayEnvelope (r : AlgorithmicReverb) : ℝ := r.decayEnvelope

/-- One sample of pipeline step 1 of `AlgorithmicReverb::process` (lines
160-184): advance the modulation engine, read the pre-delay at
`writeIndex - preDelaySamples` (wrapped), write the dry input, advance the
write index and deposit the delayed samples into the wet buffer. -/
def AlgorithmicReverb.preDelayStep (buffer : AudioBuffer) (numChannels : ℕ)
    (entropy : ℕ → Fin 8 → ℝ) (i : ℕ) (s : AlgorithmicReverb × AudioBuffer) :
    AlgorithmicReverb × AudioBuffer :=
  let r := s.1
  let r := { r with modulationEngine := r.modulationEngine.processSample (entropy i) }
  let size : ℤ := ((r.preDelayBuffer 0).length : ℤ)
  let readIdx : ℤ := (r.preDelayWriteIndex : ℤ) - r.preDelaySamples
  let readIdx : ℤ := if readIdx < 0 then readIdx + size else readIdx
  let leftIn : ℝ := if 0 < numChannels then buffer.getSample 0 i else 0
  let rightIn : ℝ := if 1 < numChannels then buffer.getSample 1 i else leftIn
  let pd0 := (r.preDelayBuffer 0).set r.preDelayWriteIndex leftIn
  let pd1 := (r.preDelayBuffer 1).set r.preDelayWriteIndex rightIn
  let r := { r with preDelayBuffer := fun c => if c = 0 then pd0 else pd1,
                    preDelayWriteIndex := (r.preDelayWriteIndex + 1) % pd0.length }
  ((r : AlgorithmicReverb),
   (s.2.setSample 0 i (pd0.getD readIdx.toNat 0)).setSample 1 i (pd1.getD readIdx.toNat 0))

/-- The innermost loop of pipeline step 3 (lines 198-210): comb unit `k` of
channel `ch` processes `input/8` with its modulation offset; its output is
accumulated with the Hadamard-style alternating sign `(k+ch) % 2`. -/
def AlgorithmicReverb.combStep (input : ℝ) (ch k : ℕ) (t : AlgorithmicReverb × ℝ) :
    AlgorithmicReverb × ℝ :=
  let modOffset := t.1.modulationEngine.getModulation (k : ℤ)
  let res := (t.1.combFilters ch k).processModulated (input / 8) modOffset
  let sign : ℝ := if (k + ch) % 2 = 0 then 1 else -1
  ({ t.1 with combFilters := upd2 t.1.combFilters ch k res.1 }, t.2 + res.2 * sign)

/-- One channel of one sample of pipeline step 3 (lines 192-213). -/
def AlgorithmicReverb.combChannelStep (i ch : ℕ) (s : AlgorithmicReverb × AudioBuffer) :
    AlgorithmicReverb × AudioBuffer :=
  let input := s.2.getSample ch i
  let res := iterUpTo (AlgorithmicReverb.combStep input ch) 8 (s.1, 0)
  (res.1, s.2.setSample ch i res.2)

/-- One sample of pipeline step 5 (lines 225-235): the mid/side stereo
width transform. -/
def widthStep (width : ℝ) (i : ℕ) (b : AudioBuffer) : AudioBuffer :=
  let left := b.getSample 0 i
  let right := b.getSample 1 i
  let mid := (left + right) * 0.5
  let side := (left - right) * 0.5 * width
  (b.setSample 0 i (mid + side)).setSample 1 i (mid - side)

/-- Pipeline step 5 of `AlgorithmicReverb::process` (lines 222-236): the
stereo width transform over the wet block, applied only when
`|width - 1| > 0.01`. -/
def applyWidth (width : ℝ) (buf : AudioBuffer) : AudioBuffer :=
  if 0.01 < |width - 1| then iterUpTo (widthStep width) buf.numSamples buf else buf

/-- Pipeline step 6 (lines 238-246): the maximum absolute sample over the
whole wet block (`juce::jmax` fold). -/
def blockPeak (buf : AudioBuffer) : ℝ :=
  iterUpTo (fun ch acc =>
      iterUpTo (fun i acc => jmax acc |buf.getSample ch i|) buf.numSamples acc)
    buf.numChannels 0

/-- Pipeline step 1 of `AlgorithmicReverb::process`: run the pre-delay /
modulation step over the whole block into a cleared 2-channel wet buffer. -/
def AlgorithmicReverb.stageA (r : AlgorithmicReverb) (buffer : AudioBuffer)
    (entropy : ℕ → Fin 8 → ℝ) : AlgorithmicReverb × AudioBuffer :=
  iterUpTo (AlgorithmicReverb.preDelayStep buffer (min buffer.numChannels 2) entropy)
    buffer.numSamples (r, ⟨2, buffer.numSamples, fun _ _ => 0⟩)

/-- Pipeline step 2: the diffusion network processes the wet block. -/
def AlgorithmicReverb.stageB (s : AlgorithmicReverb × AudioBuffer) :
    AlgorithmicReverb × AudioBuffer :=
  let res := s.1.diffusionNetwork.process s.2
  ({ s.1 with diffusionNetwork := res.1 }, res.2)

/-- Pipeline step 3: the modulated comb bank with Hadamard-style mixing,
per sample, channels 0 and 1. -/
def AlgorithmicReverb.stageC (numSamples : ℕ) (s : AlgorithmicReverb × AudioBuffer) :
    AlgorithmicReverb × AudioBuffer :=
  iterUpTo (fun i t => iterUpTo (AlgorithmicReverb.combChannelStep i) 2 t) numSamples s

/-- Pipeline step 4: high-cut (low-pass) then low-cut (high-pass) over the
whole wet block. -/
def AlgorithmicReverb.stageD (s : AlgorithmicReverb × AudioBuffer) :
    AlgorithmicReverb × AudioBuffer :=
  let hres := s.1.highCutFilter.processBlock s.2
  let lres := s.1.lowCutFilter.processBlock hres.2
  ({ s.1 with highCutFilter := hres.1, lowCutFilter := lres.1 }, lres.2)

/-- Models `AlgorithmicReverb::process` (lines 151-254): pre-delay (with
per-sample modulation advance), diffusion, comb bank, tone filters, stereo
width, decay-envelope tracking, and the copy of the wet result back into
the first `min (numChannels, 2)` channels of the caller's buffer. -/
def AlgorithmicReverb.process (r : AlgorithmicReverb) (buffer : AudioBuffer)
    (entropy : ℕ → Fin 8 → ℝ) : AlgorithmicReverb × AudioBuffer :=
  let numChannels := min buffer.numChannels 2
  let s4 := AlgorithmicReverb.stageD
    (AlgorithmicReverb.stageC buffer.numSamples
      (AlgorithmicReverb.stageB (r.stageA buffer entropy)))
  let wet := applyWidth s4.1.width s4.2
  let rOut := { s4.1 with
    decayEnvelope := s4.1.decayEnvelope * 0.99 + blockPeak wet * 0.01 }
  (rOut,
   { buffer with data := fun ch i =>
       if ch < numChannels ∧ i < buffer.numSamples then wet.data ch i
       else buffer.data ch i })

--==============================================================================
-- Zero-state predicates (for the silence-idempotence claims)
--==============================================================================

/-- Every stored sample of the list is zero. -/
def zeroL (l : List ℝ) : Prop := ∀ x ∈ l, x = 0

/-- Every stored sample of the buffer is zero. -/
def zeroBuf (b : AudioBuffer) : Prop := ∀ ch i, b.data ch i = 0

/-- A comb unit with silent buffer and damping-filter state. -/
def CombFilter.zeroState (c : CombFilter) : Prop :=
  zeroL c.buffer ∧ c.filterState = 0

/-- A duplicated biquad with silent per-channel state. -/
def Duplicator.zeroState (f : Duplicator) : Prop :=
  ∀ ch, f.s1 ch = 0 ∧ f.s2 ch = 0

/-- A diffusion network whose allpass buffers and shelf filter state are
silent. -/
def DiffusionNetwork.zeroState (d : DiffusionNetwork) : Prop :=
  (∀ ch i, ch < 2 → i < 8 → zeroL (d.allpassFilters ch i).buffer)
    ∧ d.lowMidFilter.zeroState

--==============================================================================
-- Theorems
--==============================================================================

/-- Clamping yields a value at most the upper bound. -/
theorem jlimit_le {α : Type*} [LinearOrder α] {lo hi : α} (v : α) (h : lo ≤ hi) :
    jlimit lo hi v ≤ hi := by
  unfold jlimit
  split_ifs with h1 h2
  · exact h
  · exact le_rfl
  · exact le_of_not_lt h2

/-- Clamping yields a value at least the lower bound. -/
theorem le_jlimit {α : Type*} [LinearOrder α] {lo hi : α} (v : α) (h : lo ≤ hi) :
    lo ≤ jlimit lo hi v := by
  unfold jlimit
  split_ifs with h1 h2
  · exact le_rfl
  · exact h
  · exact le_of_not_lt h1

/-- Clamping an in-range value is the identity. -/
theorem jlimit_of_le {α : Type*} [LinearOrder α] {lo hi v : α} (h1 : lo ≤ v) (h2 : v ≤ hi) :
    jlimit lo hi v = v := by
  unfold jlimit
  rw [if_neg (not_lt.mpr h1), if_neg (not_lt.mpr h2)]

/-- When active, one fairing sample update advances the phase by the
block-entry phase increment, saturating at 1 and deactivating. -/
theorem FairingSeparation.sampleUpdate_active (g : FairingSeparation)
    (hA : g.isActive = true) :
    (g.sampleUpdate.currentPhase, g.sampleUpdate.isActive)
      = if 1 ≤ g.currentPhase + 1 / (g.syncBeats / (g.currentBPM / 60) * g.sampleRate)
        then ((1 : ℝ), false)
        else (g.currentPhase + 1 / (g.syncBeats / (g.currentBPM / 60) * g.sampleRate), true) := by
  unfold FairingSeparation.sampleUpdate
  simp only [hA, if_true]

/-- When inactive, one fairing sample update leaves the phase and activity
unchanged. -/
theorem FairingSeparation.sampleUpdate_inactive (g : FairingSeparation)
    (hB : g.isActive = false) :
    g.sampleUpdate.currentPhase = g.currentPhase ∧ g.sampleUpdate.isActive = false := by
  unfold FairingSeparation.sampleUpdate
  simp [hB]

/-- Per-sample invariant of the triggered fairing state machine at BPM 120
and syncBeats 4: after `n` updates the phase is `min (n/(2*sampleRate)) 1`
and the effect is active precisely while `n/(2*sampleRate) < 1`. -/
theorem fairing_iterate_state (f : FairingSeparation)
    (hidle : f.isActive = false) (hbpm : f.currentBPM = 120)
    (hbeats : f.syncBeats = 4) (hsr : 0 < f.sampleRate) (n : ℕ) :
    (FairingSeparation.sampleUpdate^[n] f.trigger).sampleRate = f.sampleRate
    ∧ (FairingSeparation.sampleUpdate^[n] f.trigger).currentBPM = 120
    ∧ (FairingSeparation.sampleUpdate^[n] f.trigger).syncBeats = 4
    ∧ (FairingSeparation.sampleUpdate^[n] f.trigger).currentPhase
        = min ((n : ℝ) / (2 * f.sampleRate)) 1
    ∧ ((FairingSeparation.sampleUpdate^[n] f.trigger).isActive = true
        ↔ (n : ℝ) / (2 * f.sampleRate) < 1) := by
  have hD : (0 : ℝ) < 2 * f.sampleRate := by positivity
  induction n with
  | zero =>
    simp only [Function.iterate_zero, id_eq]
    unfold FairingSeparation.trigger
    rw [if_neg (by simp [hidle])]
    refine ⟨rfl, hbpm, hbeats, ?_, ?_⟩
    · show (0 : ℝ) = min (((0 : ℕ) : ℝ) / (2 * f.sampleRate)) 1
      rw [Nat.cast_zero, zero_div, min_eq_left zero_le_one]
    · show (true = true) ↔ (((0 : ℕ) : ℝ) / (2 * f.sampleRate) < 1)
      rw [Nat.cast_zero, zero_div]
      exact iff_of_true rfl zero_lt_one
  | succ n ih =>
    obtain ⟨h1, h2, h3, h4, h5⟩ := ih
    set g := FairingSeparation.sampleUpdate^[n] f.trigger with hg
    rw [Function.iterate_succ_apply']
    refine ⟨h1, h2, h3, ?_, ?_⟩ <;> push_cast
    all_goals {
      have hdur : g.syncBeats / (g.currentBPM / 60) * g.sampleRate = 2 * f.sampleRate := by
        rw [h2, h3, h1]; norm_num
      cases hact : g.isActive with
      | true =>
        have hlt : (n : ℝ) / (2 * f.sampleRate) < 1 := h5.mp hact
        have hphase : g.currentPhase = (n : ℝ) / (2 * f.sampleRate) := by
          rw [h4, min_eq_left hlt.le]
        have hstep := g.sampleUpdate_active hact
        rw [hdur, hphase, div_add_div_same] at hstep
        by_cases hone : 1 ≤ ((n : ℝ) + 1) / (2 * f.sampleRate)
        · rw [if_pos hone] at hstep
          have hp := congrArg Prod.fst hstep
          have ha := congrArg Prod.snd hstep
          simp only at hp ha
          first
          | rw [hp, min_eq_right hone]
          | (rw [ha]; exact iff_of_false (by simp) (not_lt.mpr hone))
        · rw [if_neg hone] at hstep
          have hp := congrArg Prod.fst hstep
          have ha := congrArg Prod.snd hstep
          simp only at hp ha
          first
          | rw [hp, min_eq_left (le_of_not_le hone)]
          | (rw [ha]; exact iff_of_true rfl (lt_of_not_le hone))
      | false =>
        have hge : 1 ≤ (n : ℝ) / (2 * f.sampleRate) := by
          by_contra hc
          exact absurd (h5.mpr (lt_of_not_le hc)) (by simp [hact])
        have hge' : 1 ≤ ((n : ℝ) + 1) / (2 * f.sampleRate) := by
          refine hge.trans ((div_le_div_iff_of_pos_right hD).mpr (by linarith))
        obtain ⟨hp, ha⟩ := g.sampleUpdate_inactive hact
        first
        | rw [hp, h4, min_eq_right hge, min_eq_right hge']
        | (rw [ha]; exact iff_of_false (by simp) (not_lt.mpr hge')) }

/-- C3: after `trigger()` from idle with BPM 120 and syncBeats 4,
`getIsActive()` returns true for exactly `durationSeconds * sampleRate =
(syncBeats / (BPM/60)) * sampleRate = 2 * sampleRate` per-sample updates:
it is still true after any `n < 2*sampleRate` updates of the processing
loop and false from the `2*sampleRate`-th update onward. -/
theorem fairing_trigger_duration (f : FairingSeparation) (n : ℕ)
    (hidle : f.isActive = false) (hbpm : f.currentBPM = 120)
    (hbeats : f.syncBeats = 4) (hsr : 0 < f.sampleRate) :
    (FairingSeparation.sampleUpdate^[n] f.trigger).getIsActive = true
      ↔ (n : ℝ) < 2 * f.sampleRate := by
  have h := (fairing_iterate_state f hidle hbpm hbeats hsr n).2.2.2.2
  show (FairingSeparation.sampleUpdate^[n] f.trigger).isActive = true ↔ _
  rw [h, div_lt_one (by positivity)]

/-- C3 witness: at the default 44100 Hz sample rate the triggered effect is
still active after 88199 per-sample updates and inactive after 88200. -/
theorem fairing_trigger_duration_witness :
    (FairingSeparation.sampleUpdate^[88199] FairingSeparation.default.trigger).getIsActive = true
    ∧ ¬ ((FairingSeparation.sampleUpdate^[88200]
            FairingSeparation.default.trigger).getIsActive = true) :=
  ⟨(fairing_trigger_duration FairingSeparation.default 88199 rfl rfl rfl
      (by norm_num [FairingSeparation.default])).mpr
      (by norm_num [FairingSeparation.default]),
   fun hc => absurd ((fairing_trigger_duration FairingSeparation.default 88200 rfl rfl rfl
      (by norm_num [FairingSeparation.default])).mp hc)
      (by norm_num [FairingSeparation.default])⟩

/-- C4 counterexample: at thrust 3/5 the source truncates
`2 + (3/5)*6 = 5.6` to 5 active stages, whereas `round (5.6) = 6`; the
claimed `round` derivation does not match the code. -/
theorem activeStages_round_cex :
    (DiffusionNetwork.default.setThrust (3 / 5)).getActiveStages
      ≠ round (2 + (3 / 5 : ℝ) * 6) := by
  have ht : (DiffusionNetwork.default.setThrust (3 / 5)).thrustAmount = 3 / 5 := by
    show jlimit (0 : ℝ) 1 (3 / 5) = 3 / 5
    rw [jlimit_of_le (by norm_num) (by norm_num)]
  have h1 : (DiffusionNetwork.default.setThrust (3 / 5)).getActiveStages = 5 := by
    rw [DiffusionNetwork.getActiveStages, ht, cppInt, if_neg (by norm_num)]
    rw [show (2 : ℝ) + 3 / 5 * 6 = 28 / 5 by norm_num, Int.floor_eq_iff]
    norm_num
  have h2 : round (2 + (3 / 5 : ℝ) * 6) = 6 := by
    rw [round_eq,
        show (2 : ℝ) + 3 / 5 * 6 + 1 / 2 = 61 / 10 by norm_num, Int.floor_eq_iff]
    norm_num
  rw [h1, h2]
  norm_num

/-- C4 (amended): for thrust `t ∈ [0,1]`, the engaged stage count is the
truncation `⌊2 + t*6⌋` of `2 + t*6` (not its rounding); it lies in `[2,8]`
and equals 8 (all stages) at full thrust `t = 1`. -/
theorem setThrust_activeStages (d : DiffusionNetwork) (t : ℝ)
    (h0 : 0 ≤ t) (h1 : t ≤ 1) :
    (d.setThrust t).getActiveStages = ⌊2 + t * 6⌋
    ∧ 2 ≤ (d.setThrust t).getActiveStages
    ∧ (d.setThrust t).getActiveStages ≤ 8
    ∧ (t = 1 → (d.setThrust t).getActiveStages = 8) := by
  have ht : (d.setThrust t).thrustAmount = t := by
    show jlimit (0 : ℝ) 1 t = t
    exact jlimit_of_le h0 h1
  have ht6 : (0 : ℝ) ≤ t * 6 := by positivity
  have hfloor : (d.setThrust t).getActiveStages = ⌊2 + t * 6⌋ := by
    rw [DiffusionNetwork.getActiveStages, ht, cppInt, if_neg (by linarith)]
  refine ⟨hfloor, ?_, ?_, ?_⟩
  · rw [hfloor]
    exact Int.le_floor.mpr (by push_cast; linarith)
  · rw [hfloor]
    have := Int.floor_mono (show 2 + t * 6 ≤ (8 : ℝ) by linarith)
    simpa using this
  · intro heq
    subst heq
    rw [hfloor]
    norm_num

/-- C4 witness: full thrust engages all 8 stages. -/
theorem setThrust_activeStages_witness :
    (DiffusionNetwork.default.setThrust 1).getActiveStages = 8 :=
  (setThrust_activeStages DiffusionNetwork.default 1 (by norm_num) le_rfl).2.2.2 rfl

/-- C9 counterexample: `setSyncBeats 3` stores 3, which is not in the
documented set {1, 2, 4, 8}: the source clamps to the interval [1, 8]
instead of coercing into the set. -/
theorem setSyncBeats_membership_cex :
    (FairingSeparation.default.setSyncBeats 3).syncBeats ∉ ({1, 2, 4, 8} : Set ℝ) := by
  have h : (FairingSeparation.default.setSyncBeats 3).syncBeats = 3 := by
    show jlimit (1 : ℝ) 8 3 = 3
    exact jlimit_of_le (by norm_num) (by norm_num)
  rw [h]
  simp only [Set.mem_insert_iff, Set.mem_singleton_iff]
  norm_num

/-- C9 (amended): `setSyncBeats` clamps its argument to the interval
[1, 8]: the stored value always lies in [1, 8], any in-range value
(including non-members of {1,2,4,8} such as 3) is stored unchanged, and
no input is rejected. -/
theorem setSyncBeats_clamp (f : FairingSeparation) (b : ℝ) :
    1 ≤ (f.setSyncBeats b).syncBeats
    ∧ (f.setSyncBeats b).syncBeats ≤ 8
    ∧ (1 ≤ b → b ≤ 8 → (f.setSyncBeats b).syncBeats = b) :=
  ⟨le_jlimit b (by norm_num), jlimit_le b (by norm_num),
   fun hb1 hb8 => jlimit_of_le hb1 hb8⟩

/-- C9 witness: the amended clamp at the concrete out-of-set input 3. -/
theorem setSyncBeats_clamp_witness :
    (FairingSeparation.default.setSyncBeats 3).syncBeats = 3 :=
  (setSyncBeats_clamp FairingSeparation.default 3).2.2 (by norm_num) (by norm_num)

/-- C10: `ModulationEngine::getModulation` is total: for any integer index
outside [0, 8) it returns 0 (the state is a read-only argument, so nothing
is modified), and for an in-range index it returns the current smoothed
output register for that index. -/
theorem getModulation_total (m : ModulationEngine) (i : ℤ) :
    (i < 0 ∨ 8 ≤ i → m.getModulation i = 0)
    ∧ ∀ (h0 : 0 ≤ i) (h8 : i < 8),
        m.getModulation i = m.smoothedOutputs ⟨i.toNat, by omega⟩ := by
  constructor
  · intro hout
    rw [ModulationEngine.getModulation, dif_neg (by omega)]
  · intro h0 h8
    rw [ModulationEngine.getModulation, dif_pos ⟨h0, h8⟩]

/-- Reading any position of an all-zero list (with default 0) gives 0. -/
theorem zeroL_getD {l : List ℝ} (h : zeroL l) (n : ℕ) : l.getD n 0 = 0 := by
  rw [List.getD_eq_getElem?_getD]
  rcases hn : l[n]? with _ | a
  · rfl
  · obtain ⟨hlt, rfl⟩ := List.getElem?_eq_some.mp hn
    exact h _ (List.getElem_mem _)

/-- Writing a zero into an all-zero list keeps it all-zero. -/
theorem zeroL_set {l : List ℝ} (h : zeroL l) {v : ℝ} (hv : v = 0) (n : ℕ) :
    zeroL (l.set n v) := by
  subst hv
  intro x hx
  exact (List.mem_or_eq_of_mem_set hx).elim (h x) id

/-- A zero-filled replicate list is all-zero. -/
theorem zeroL_replicate (n : ℕ) : zeroL (List.replicate n (0 : ℝ)) :=
  fun _ hx => List.eq_of_mem_replicate hx

/-- Setting a zero sample in an all-zero buffer keeps it all-zero. -/
theorem zeroBuf_setSample {b : AudioBuffer} (h : zeroBuf b) {v : ℝ} (hv : v = 0)
    (ch i : ℕ) : zeroBuf (b.setSample ch i v) := by
  subst hv
  intro c j
  show (if c = ch ∧ j = i then 0 else b.data c j) = 0
  split_ifs with hc
  · rfl
  · exact h c j

/-- A loop body that preserves an invariant preserves it over the whole
iteration. -/
theorem iterUpTo_inv {σ : Type*} (P : σ → Prop) (f : ℕ → σ → σ)
    (h : ∀ i s, P s → P (f i s)) : ∀ n s, P s → P (iterUpTo f n s)
  | 0, _, hs => hs
  | n + 1, s, hs => h n _ (iterUpTo_inv P f h n s hs)

/-- Invariant preservation when the body is only invariant-preserving for
indices below the loop bound. -/
theorem iterUpTo_inv_lt {σ : Type*} (P : σ → Prop) (f : ℕ → σ → σ) (n : ℕ)
    (h : ∀ i, i < n → ∀ s, P s → P (f i s)) : ∀ s, P s → P (iterUpTo f n s) := by
  induction n with
  | zero => exact fun s hs => hs
  | succ n ih =>
    intro s hs
    exact h n (Nat.lt_succ_self n) _
      (ih (fun i hi s hs => h i (hi.trans (Nat.lt_succ_self n)) s hs) s hs)

/-- An interpolated read from an all-zero comb delay line is 0. -/
theorem comb_readInterpolated_zero {c : CombFilter} (h : zeroL c.buffer)
    (delay : ℝ) : c.readInterpolated delay = 0 := by
  simp only [CombFilter.readInterpolated]
  rw [zeroL_getD h, zeroL_getD h]
  ring

/-- An interpolated read from an all-zero allpass delay line is 0. -/
theorem allpass_readInterpolated_zero {a : AllpassFilter} (h : zeroL a.buffer)
    (delay : ℝ) : a.readInterpolated delay = 0 := by
  simp only [AllpassFilter.readInterpolated]
  rw [zeroL_getD h, zeroL_getD h]
  ring

/-- A silent comb unit fed silence stays silent and outputs silence, for
any modulation offset. -/
theorem CombFilter.processModulated_zero {c : CombFilter} (h : c.zeroState) (off : ℝ) :
    (c.processModulated 0 off).1.zeroState ∧ (c.processModulated 0 off).2 = 0 := by
  obtain ⟨hb, hf⟩ := h
  have hr : c.readInterpolated (jlimit 1 (c.maxDelay : ℝ) (c.currentDelay + off)) = 0 :=
    comb_readInterpolated_zero hb _
  refine ⟨⟨?_, ?_⟩, hr⟩
  · show zeroL (c.buffer.set c.writeIndex
      (0 + (c.readInterpolated (jlimit 1 (c.maxDelay : ℝ) (c.currentDelay + off))
              * (1 - c.damping) + c.filterState * c.damping) * c.feedback))
    exact zeroL_set hb (by rw [hr, hf]; ring) _
  · show c.readInterpolated (jlimit 1 (c.maxDelay : ℝ) (c.currentDelay + off))
        * (1 - c.damping) + c.filterState * c.damping = 0
    rw [hr, hf]
    ring

/-- A silent allpass unit fed silence stays silent and outputs silence. -/
theorem allpass_process_zero {a : AllpassFilter} (h : zeroL a.buffer) :
    zeroL (a.process 0).1.buffer ∧ (a.process 0).2 = 0 := by
  have hr : a.readInterpolated a.currentDelay = 0 := allpass_readInterpolated_zero h _
  constructor
  · show zeroL (a.buffer.set a.writeIndex
      (0 + a.feedback * a.readInterpolated a.currentDelay))
    exact zeroL_set h (by rw [hr]; ring) _
  · show -a.feedback * 0 + a.readInterpolated a.currentDelay = 0
    rw [hr]
    ring

/-- A silent biquad fed silence stays silent and outputs silence. -/
theorem Duplicator.step_zero {f : Duplicator} (h : f.zeroState) (ch : ℕ) :
    (f.step ch 0).1.zeroState ∧ (f.step ch 0).2 = 0 := by
  have h1 := (h ch).1
  have h2 := (h ch).2
  constructor
  · intro c
    constructor
    · show Function.update f.s1 ch
        (f.coeffs.b1 * 0 + f.s2 ch - f.coeffs.a1 * (f.coeffs.b0 * 0 + f.s1 ch)) c = 0
      rcases eq_or_ne c ch with rfl | hne
      · rw [Function.update_same, h1, h2]
        ring
      · rw [Function.update_noteq hne]
        exact (h c).1
    · show Function.update f.s2 ch
        (f.coeffs.b2 * 0 - f.coeffs.a2 * (f.coeffs.b0 * 0 + f.s1 ch)) c = 0
      rcases eq_or_ne c ch with rfl | hne
      · rw [Function.update_same, h1]
        ring
      · rw [Function.update_noteq hne]
        exact (h c).2
  · show f.coeffs.b0 * 0 + f.s1 ch = 0
    rw [h1]
    ring

/-- A silent duplicated filter processing a silent block leaves both
silent. -/
theorem Duplicator.processBlock_zero {f : Duplicator} {b : AudioBuffer}
    (hf : f.zeroState) (hb : zeroBuf b) :
    (f.processBlock b).1.zeroState ∧ zeroBuf (f.processBlock b).2 := by
  have key : ∀ ch i (s : Duplicator × AudioBuffer),
      (s.1.zeroState ∧ zeroBuf s.2) →
      ((Duplicator.sampleStep ch i s).1.zeroState
        ∧ zeroBuf (Duplicator.sampleStep ch i s).2) := by
    intro ch i s hs
    obtain ⟨hsf, hsb⟩ := hs
    have hin : s.2.getSample ch i = 0 := hsb ch i
    have hz := Duplicator.step_zero hsf ch
    unfold Duplicator.sampleStep
    rw [hin]
    exact ⟨hz.1, zeroBuf_setSample hsb hz.2 ch i⟩
  exact iterUpTo_inv (fun s => s.1.zeroState ∧ zeroBuf s.2) _
    (fun ch s hs =>
      iterUpTo_inv (fun s => s.1.zeroState ∧ zeroBuf s.2) _
        (fun i s hs => key ch i s hs) b.numSamples s hs)
    b.numChannels (f, b) ⟨hf, hb⟩

/-- A silent stage fold of one diffusion channel (channel < 2, stage count
within the 8-element array) keeps every allpass silent, outputs silence
and leaves the shelf filter and thrust untouched. -/
theorem DiffusionNetwork.processChSample_zero {d : DiffusionNetwork} (ch : ℕ)
    (hz : ∀ c j, c < 2 → j < 8 → zeroL (d.allpassFilters c j).buffer)
    (hstages : d.getActiveStages.toNat ≤ 8) (hch : ch < 2) :
    (∀ c j, c < 2 → j < 8 → zeroL ((d.processChSample ch 0).1.allpassFilters c j).buffer)
    ∧ (d.processChSample ch 0).1.lowMidFilter = d.lowMidFilter
    ∧ (d.processChSample ch 0).1.thrustAmount = d.thrustAmount
    ∧ (d.processChSample ch 0).2 = 0 := by
  have main := iterUpTo_inv_lt
    (fun t : DiffusionNetwork × ℝ =>
      (∀ c j, c < 2 → j < 8 → zeroL (t.1.allpassFilters c j).buffer)
      ∧ t.1.lowMidFilter = d.lowMidFilter
      ∧ t.1.thrustAmount = d.thrustAmount
      ∧ t.2 = 0)
    (DiffusionNetwork.stageStep ch) d.getActiveStages.toNat
    ?_ (d, 0) ⟨hz, rfl, rfl, rfl⟩
  · exact ⟨main.1, main.2.1, main.2.2.1, main.2.2.2⟩
  · intro stage hstage t ht
    obtain ⟨htz, htl, htt, ht2⟩ := ht
    have hstage8 : stage < 8 := lt_of_lt_of_le hstage hstages
    have hap := allpass_process_zero (htz ch stage hch hstage8)
    refine ⟨?_, htl, htt, ?_⟩
    · intro c j hc hj
      show zeroL ((upd2 t.1.allpassFilters ch stage
        ((t.1.allpassFilters ch stage).process t.2).1 c j).buffer)
      rw [ht2]
      unfold upd2
      split_ifs with hcase
      · exact hap.1
      · exact htz c j hc hj
    · show ((t.1.allpassFilters ch stage).process t.2).2 = 0
      rw [ht2]
      exact hap.2

/-- A silent diffusion network processing a silent block (with the stage
count within the array, as guaranteed by `setThrust`'s clamp) leaves the
network and the block silent. -/
theorem diffusion_process_zero {d : DiffusionNetwork} {b : AudioBuffer}
    (hd : d.zeroState) (hstages : d.getActiveStages.toNat ≤ 8) (hb : zeroBuf b) :
    (d.process b).1.zeroState ∧ zeroBuf (d.process b).2 := by
  obtain ⟨hap, hlm⟩ := hd
  have hcore := iterUpTo_inv_lt
    (fun s : DiffusionNetwork × AudioBuffer =>
      (∀ c j, c < 2 → j < 8 → zeroL (s.1.allpassFilters c j).buffer)
      ∧ s.1.lowMidFilter = d.lowMidFilter
      ∧ s.1.thrustAmount = d.thrustAmount
      ∧ zeroBuf s.2)
    (fun ch s => iterUpTo (DiffusionNetwork.sampleStep ch) b.numSamples s)
    (min b.numChannels 2) ?_ (d, b) ⟨hap, rfl, rfl, hb⟩
  · obtain ⟨hcz, hcl, hct, hcb⟩ := hcore
    have hzs : (iterUpTo (fun ch s => iterUpTo (DiffusionNetwork.sampleStep ch)
        b.numSamples s) (min b.numChannels 2) (d, b)).1.zeroState :=
      ⟨hcz, by rw [hcl]; exact hlm⟩
    simp only [DiffusionNetwork.process]
    split_ifs with hthr
    · have hfb := Duplicator.processBlock_zero hzs.2 hcb
      exact ⟨⟨hzs.1, hfb.1⟩, hfb.2⟩
    · exact ⟨hzs, hcb⟩
  · intro ch hchlt s hs
    obtain ⟨hsz, hsl, hst, hsb⟩ := hs
    have hch2 : ch < 2 := lt_of_lt_of_le hchlt (min_le_right _ _)
    refine iterUpTo_inv
      (fun s : DiffusionNetwork × AudioBuffer =>
        (∀ c j, c < 2 → j < 8 → zeroL (s.1.allpassFilters c j).buffer)
        ∧ s.1.lowMidFilter = d.lowMidFilter
        ∧ s.1.thrustAmount = d.thrustAmount
        ∧ zeroBuf s.2)
      (DiffusionNetwork.sampleStep ch) ?_ b.numSamples s ⟨hsz, hsl, hst, hsb⟩
    intro i t ht
    obtain ⟨htz, htl, htt, htb⟩ := ht
    have hin : t.2.getSample ch i = 0 := htb ch i
    have hstagesEq : t.1.getActiveStages = d.getActiveStages := by
      unfold DiffusionNetwork.getActiveStages
      rw [htt]
    have hcs := DiffusionNetwork.processChSample_zero ch htz
      (by rw [hstagesEq]; exact hstages) hch2
    unfold DiffusionNetwork.sampleStep
    rw [hin]
    refine ⟨hcs.1, by rw [hcs.2.1]; exact htl, by rw [hcs.2.2.1]; exact htt, ?_⟩
    exact zeroBuf_setSample htb hcs.2.2.2 ch i

/-- One pre-delay/modulation step on silent pre-delay lines and a silent
dry block keeps the pre-delay lines and the wet buffer silent. -/
theorem preDelayStep_zero (buffer : AudioBuffer) (numCh : ℕ) (entropy : ℕ → Fin 8 → ℝ)
    (hbuf : zeroBuf buffer) (i : ℕ) (s : AlgorithmicReverb × AudioBuffer)
    (hs : zeroL (s.1.preDelayBuffer 0) ∧ zeroL (s.1.preDelayBuffer 1) ∧ zeroBuf s.2) :
    zeroL ((AlgorithmicReverb.preDelayStep buffer numCh entropy i s).1.preDelayBuffer 0)
    ∧ zeroL ((AlgorithmicReverb.preDelayStep buffer numCh entropy i s).1.preDelayBuffer 1)
    ∧ zeroBuf (AlgorithmicReverb.preDelayStep buffer numCh entropy i s).2 := by
  obtain ⟨hp0, hp1, hw⟩ := hs
  have hL : (if 0 < numCh then buffer.getSample 0 i else 0) = 0 := by
    split_ifs
    · exact hbuf 0 i
    · rfl
  have hR : (if 1 < numCh then buffer.getSample 1 i
      else (if 0 < numCh then buffer.getSample 0 i else 0)) = 0 := by
    split_ifs
    · exact hbuf 1 i
    · exact hbuf 0 i
    · rfl
  have hpd0 : zeroL ((s.1.preDelayBuffer 0).set s.1.preDelayWriteIndex
      (if 0 < numCh then buffer.getSample 0 i else 0)) := zeroL_set hp0 hL _
  have hpd1 : zeroL ((s.1.preDelayBuffer 1).set s.1.preDelayWriteIndex
      (if 1 < numCh then buffer.getSample 1 i
        else (if 0 < numCh then buffer.getSample 0 i else 0))) := zeroL_set hp1 hR _
  exact ⟨hpd0, hpd1,
    zeroBuf_setSample (zeroBuf_setSample hw (zeroL_getD hpd0 _) 0 i) (zeroL_getD hpd1 _) 1 i⟩

/-- Pipeline step 1 on a silent dry block after silent pre-delay lines
produces a silent wet buffer, and writes none of the downstream state. -/
theorem stageA_zero (r : AlgorithmicReverb) (buffer : AudioBuffer) (entropy : ℕ → Fin 8 → ℝ)
    (hpd0 : zeroL (r.preDelayBuffer 0)) (hpd1 : zeroL (r.preDelayBuffer 1))
    (hbuf : zeroBuf buffer) :
    zeroBuf (r.stageA buffer entropy).2
    ∧ (r.stageA buffer entropy).1.diffusionNetwork = r.diffusionNetwork
    ∧ (r.stageA buffer entropy).1.combFilters = r.combFilters
    ∧ (r.stageA buffer entropy).1.highCutFilter = r.highCutFilter
    ∧ (r.stageA buffer entropy).1.lowCutFilter = r.lowCutFilter
    ∧ (r.stageA buffer entropy).1.width = r.width := by
  have main := iterUpTo_inv
    (fun s : AlgorithmicReverb × AudioBuffer =>
      (zeroL (s.1.preDelayBuffer 0) ∧ zeroL (s.1.preDelayBuffer 1) ∧ zeroBuf s.2)
      ∧ s.1.diffusionNetwork = r.diffusionNetwork
      ∧ s.1.combFilters = r.combFilters
      ∧ s.1.highCutFilter = r.highCutFilter
      ∧ s.1.lowCutFilter = r.lowCutFilter
      ∧ s.1.width = r.width)
    (AlgorithmicReverb.preDelayStep buffer (min buffer.numChannels 2) entropy)
    ?_ buffer.numSamples (r, ⟨2, buffer.numSamples, fun _ _ => 0⟩)
    ⟨⟨hpd0, hpd1, fun _ _ => rfl⟩, rfl, rfl, rfl, rfl, rfl⟩
  · exact ⟨main.1.2.2, main.2⟩
  · intro i s hs
    have hz := preDelayStep_zero buffer (min buffer.numChannels 2) entropy hbuf i s hs.1
    exact ⟨⟨hz.1, hz.2.1, hz.2.2⟩, hs.2.1, hs.2.2.1, hs.2.2.2.1, hs.2.2.2.2.1, hs.2.2.2.2.2⟩

/-- The 8-unit comb fold of one channel, fed silence from silent comb
units, keeps them silent, accumulates 0 and writes nothing else. -/
theorem combLoop_zero (input : ℝ) (hin : input = 0) (ch : ℕ) (hch : ch < 2)
    (t0 : AlgorithmicReverb)
    (hc : ∀ c k, c < 2 → k < 8 → (t0.combFilters c k).zeroState) :
    (∀ c k, c < 2 → k < 8 →
      ((iterUpTo (AlgorithmicReverb.combStep input ch) 8 (t0, 0)).1.combFilters c k).zeroState)
    ∧ (iterUpTo (AlgorithmicReverb.combStep input ch) 8 (t0, 0)).2 = 0
    ∧ (iterUpTo (AlgorithmicReverb.combStep input ch) 8 (t0, 0)).1.highCutFilter
        = t0.highCutFilter
    ∧ (iterUpTo (AlgorithmicReverb.combStep input ch) 8 (t0, 0)).1.lowCutFilter
        = t0.lowCutFilter
    ∧ (iterUpTo (AlgorithmicReverb.combStep input ch) 8 (t0, 0)).1.width = t0.width := by
  subst hin
  have main := iterUpTo_inv_lt
    (fun t : AlgorithmicReverb × ℝ =>
      (∀ c k, c < 2 → k < 8 → (t.1.combFilters c k).zeroState)
      ∧ t.2 = 0
      ∧ t.1.highCutFilter = t0.highCutFilter
      ∧ t.1.lowCutFilter = t0.lowCutFilter
      ∧ t.1.width = t0.width)
    (AlgorithmicReverb.combStep 0 ch) 8 ?_ (t0, 0) ⟨hc, rfl, rfl, rfl, rfl⟩
  · exact main
  · intro k hk8 t ht
    obtain ⟨htc, ht2, hthc, htlc, htw⟩ := ht
    have hz := CombFilter.processModulated_zero (htc ch k hch hk8)
      (t.1.modulationEngine.getModulation (k : ℤ))
    refine ⟨?_, ?_, hthc, htlc, htw⟩
    · intro c j hc' hj
      show (upd2 t.1.combFilters ch k
        ((t.1.combFilters ch k).processModulated (0 / 8)
          (t.1.modulationEngine.getModulation (k : ℤ))).1 c j).zeroState
      rw [zero_div]
      unfold upd2
      split_ifs with hcase
      · exact hz.1
      · exact htc c j hc' hj
    · show t.2 + ((t.1.combFilters ch k).processModulated (0 / 8)
          (t.1.modulationEngine.getModulation (k : ℤ))).2
          * (if (k + ch) % 2 = 0 then (1 : ℝ) else -1) = 0
      rw [zero_div, ht2, hz.2]
      ring

/-- Pipeline step 3 on a silent wet buffer with silent comb units keeps
both silent and leaves the tone filters and width untouched. -/
theorem stageC_zero (n : ℕ) (s0 : AlgorithmicReverb × AudioBuffer)
    (hc : ∀ c k, c < 2 → k < 8 → (s0.1.combFilters c k).zeroState)
    (hb : zeroBuf s0.2) :
    (∀ c k, c < 2 → k < 8 →
      ((AlgorithmicReverb.stageC n s0).1.combFilters c k).zeroState)
    ∧ zeroBuf (AlgorithmicReverb.stageC n s0).2
    ∧ (AlgorithmicReverb.stageC n s0).1.highCutFilter = s0.1.highCutFilter
    ∧ (AlgorithmicReverb.stageC n s0).1.lowCutFilter = s0.1.lowCutFilter
    ∧ (AlgorithmicReverb.stageC n s0).1.width = s0.1.width := by
  refine iterUpTo_inv
    (fun t : AlgorithmicReverb × AudioBuffer =>
      (∀ c k, c < 2 → k < 8 → (t.1.combFilters c k).zeroState)
      ∧ zeroBuf t.2
      ∧ t.1.highCutFilter = s0.1.highCutFilter
      ∧ t.1.lowCutFilter = s0.1.lowCutFilter
      ∧ t.1.width = s0.1.width)
    (fun i t => iterUpTo (AlgorithmicReverb.combChannelStep i) 2 t)
    ?_ n s0 ⟨hc, hb, rfl, rfl, rfl⟩
  intro i t ht
  refine iterUpTo_inv_lt
    (fun t : AlgorithmicReverb × AudioBuffer =>
      (∀ c k, c < 2 → k < 8 → (t.1.combFilters c k).zeroState)
      ∧ zeroBuf t.2
      ∧ t.1.highCutFilter = s0.1.highCutFilter
      ∧ t.1.lowCutFilter = s0.1.lowCutFilter
      ∧ t.1.width = s0.1.width)
    (AlgorithmicReverb.combChannelStep i) 2 ?_ t ht
  intro ch hch u hu
  obtain ⟨huc, hub, huh, hul, huw⟩ := hu
  have hloop := combLoop_zero (u.2.getSample ch i) (hub ch i) ch hch u.1 huc
  refine ⟨?_, ?_, ?_, ?_, ?_⟩
  · exact hloop.1
  · show zeroBuf (u.2.setSample ch i
      (iterUpTo (AlgorithmicReverb.combStep (u.2.getSample ch i) ch) 8 (u.1, 0)).2)
    exact zeroBuf_setSample hub hloop.2.1 ch i
  · show (iterUpTo (AlgorithmicReverb.combStep (u.2.getSample ch i) ch) 8
        (u.1, 0)).1.highCutFilter = s0.1.highCutFilter
    rw [hloop.2.2.1]
    exact huh
  · show (iterUpTo (AlgorithmicReverb.combStep (u.2.getSample ch i) ch) 8
        (u.1, 0)).1.lowCutFilter = s0.1.lowCutFilter
    rw [hloop.2.2.2.1]
    exact hul
  · show (iterUpTo (AlgorithmicReverb.combStep (u.2.getSample ch i) ch) 8
        (u.1, 0)).1.width = s0.1.width
    rw [hloop.2.2.2.2]
    exact huw

/-- The width transform maps a silent block to a silent block. -/
theorem applyWidth_zero {b : AudioBuffer} (hb : zeroBuf b) (w : ℝ) :
    zeroBuf (applyWidth w b) := by
  unfold applyWidth
  split_ifs with hw
  · refine iterUpTo_inv zeroBuf (widthStep w) ?_ b.numSamples b hb
    intro i t ht
    refine zeroBuf_setSample (zeroBuf_setSample ht ?_ 0 i) ?_ 1 i
    · show (t.getSample 0 i + t.getSample 1 i) * 0.5
        + (t.getSample 0 i - t.getSample 1 i) * 0.5 * w = 0
      simp only [AudioBuffer.getSample]
      rw [ht 0 i, ht 1 i]
      ring
    · show (t.getSample 0 i + t.getSample 1 i) * 0.5
        - (t.getSample 0 i - t.getSample 1 i) * 0.5 * w = 0
      simp only [AudioBuffer.getSample]
      rw [ht 0 i, ht 1 i]
      ring
  · exact hb

/-- C2: immediately after `reset()`, processing a block whose samples are
all zero produces an output block whose samples are all zero, for any
block length and channel count, any modulation entropy and any parameter
settings (the diffusion thrust hypothesis is exactly the [0,1] range that
`setThrust` clamps to). -/
theorem process_silence_after_reset (r : AlgorithmicReverb) (buffer : AudioBuffer)
    (entropy : ℕ → Fin 8 → ℝ)
    (ht0 : 0 ≤ r.diffusionNetwork.thrustAmount)
    (ht1 : r.diffusionNetwork.thrustAmount ≤ 1)
    (hbuf : ∀ ch i, buffer.data ch i = 0) :
    ∀ ch i, ((r.reset.process buffer entropy).2).data ch i = 0 := by
  intro ch i
  set r0 := r.reset with hr0
  have hpd : ∀ c : Fin 2, zeroL (r0.preDelayBuffer c) := fun c => zeroL_replicate _
  have hcomb : ∀ c k, c < 2 → k < 8 → (r0.combFilters c k).zeroState := by
    intro c k hc hk
    have he : r0.combFilters c k = (r.combFilters c k).reset := by
      show (if c < 2 ∧ k < 8 then (r.combFilters c k).reset else r.combFilters c k) = _
      rw [if_pos ⟨hc, hk⟩]
    rw [he]
    exact ⟨zeroL_replicate _, rfl⟩
  have hdz : r0.diffusionNetwork.zeroState := by
    constructor
    · intro c j hc hj
      have he : r0.diffusionNetwork.allpassFilters c j
          = (r.diffusionNetwork.allpassFilters c j).reset := by
        show (if c < 2 ∧ j < 8 then (r.diffusionNetwork.allpassFilters c j).reset
              else r.diffusionNetwork.allpassFilters c j) = _
        rw [if_pos ⟨hc, hj⟩]
      rw [he]
      exact zeroL_replicate _
    · exact fun c => ⟨rfl, rfl⟩
  have hhc : r0.highCutFilter.zeroState := fun c => ⟨rfl, rfl⟩
  have hlc : r0.lowCutFilter.zeroState := fun c => ⟨rfl, rfl⟩
  have ht6 : (0 : ℝ) ≤ r.diffusionNetwork.thrustAmount * 6 :=
    mul_nonneg ht0 (by norm_num)
  have hstages : r0.diffusionNetwork.getActiveStages.toNat ≤ 8 := by
    have hfl : r0.diffusionNetwork.getActiveStages ≤ 8 := by
      show cppInt (2 + r.diffusionNetwork.thrustAmount * 6) ≤ 8
      rw [cppInt, if_neg (by linarith)]
      have hmono := Int.floor_mono
        (show 2 + r.diffusionNetwork.thrustAmount * 6 ≤ (8 : ℝ) by linarith)
      simpa using hmono
    omega
  have hA := stageA_zero r0 buffer entropy (hpd 0) (hpd 1) hbuf
  set sA := r0.stageA buffer entropy with hsA
  have hB2 : zeroBuf (AlgorithmicReverb.stageB sA).2 := by
    show zeroBuf (sA.1.diffusionNetwork.process sA.2).2
    rw [hA.2.1]
    exact (diffusion_process_zero hdz hstages hA.1).2
  set sB := AlgorithmicReverb.stageB sA with hsB
  have hBcf : sB.1.combFilters = r0.combFilters := by
    show sA.1.combFilters = r0.combFilters
    exact hA.2.2.1
  have hBhc : sB.1.highCutFilter = r0.highCutFilter := by
    show sA.1.highCutFilter = r0.highCutFilter
    exact hA.2.2.2.1
  have hBlc : sB.1.lowCutFilter = r0.lowCutFilter := by
    show sA.1.lowCutFilter = r0.lowCutFilter
    exact hA.2.2.2.2.1
  have hCc : ∀ c k, c < 2 → k < 8 → (sB.1.combFilters c k).zeroState := by
    intro c k hc hk
    rw [hBcf]
    exact hcomb c k hc hk
  have hC := stageC_zero buffer.numSamples sB hCc hB2
  set sC := AlgorithmicReverb.stageC buffer.numSamples sB with hsC
  have hhc' : sC.1.highCutFilter.zeroState := by
    rw [hC.2.2.1, hBhc]
    exact hhc
  have hlc' : sC.1.lowCutFilter.zeroState := by
    rw [hC.2.2.2.1, hBlc]
    exact hlc
  have hD2 : zeroBuf (AlgorithmicReverb.stageD sC).2 := by
    show zeroBuf (sC.1.lowCutFilter.processBlock (sC.1.highCutFilter.processBlock sC.2).2).2
    exact (Duplicator.processBlock_zero hlc'
      (Duplicator.processBlock_zero hhc' hC.2.1).2).2
  have hwet : zeroBuf (applyWidth (AlgorithmicReverb.stageD sC).1.width
      (AlgorithmicReverb.stageD sC).2) := applyWidth_zero hD2 _
  show (if ch < min buffer.numChannels 2 ∧ i < buffer.numSamples
        then (applyWidth (AlgorithmicReverb.stageD sC).1.width
          (AlgorithmicReverb.stageD sC).2).data ch i
        else buffer.data ch i) = 0
  split_ifs with hcase
  · exact hwet ch i
  · exact hbuf ch i

/-- C2 witness: a concrete 1-sample zero stereo block through the freshly
reset default reverb comes out all-zero. -/
theorem process_silence_after_reset_witness :
    ((AlgorithmicReverb.default.reset.process
        ⟨2, 1, fun _ _ => 0⟩ (fun _ _ => 0)).2).data 0 0 = 0 :=
  process_silence_after_reset AlgorithmicReverb.default ⟨2, 1, fun _ _ => 0⟩
    (fun _ _ => 0) (by norm_num [AlgorithmicReverb.default, DiffusionNetwork.default])
    (by norm_num [AlgorithmicReverb.default, DiffusionNetwork.default])
    (fun _ _ => rfl) 0 0

/-- C1: for every decayTime in [0.5, 30] passed to `setDecay`, the stored
feedback of every comb unit (both channels, all 8 units) equals
`10^(-3*delaySeconds/decayTime)` clamped to [0, 0.998] — hence strictly
below 1 — and no other setter writes the comb feedback, so the bound
persists across every setter invocation. -/
theorem setDecay_comb_feedback (r : AlgorithmicReverb) (d x : ℝ) (ch i : ℕ)
    (hd1 : 0.5 ≤ d) (hd2 : d ≤ 30) (hch : ch < 2) (hi : i < 8) :
    ((r.setDecay d).combFilters ch i).feedback
      = jlimit 0 0.998
          (Real.rpow 10
            (-3 * ((combDelayTimesMs i + (if ch = 0 then 0 else 1.7)) / 1000) / d))
    ∧ ((r.setDecay d).combFilters ch i).feedback < 1
    ∧ ((r.setPreDelay x).combFilters ch i).feedback = (r.combFilters ch i).feedback
    ∧ ((r.setHighCut x).combFilters ch i).feedback = (r.combFilters ch i).feedback
    ∧ ((r.setLowCut x).combFilters ch i).feedback = (r.combFilters ch i).feedback
    ∧ ((r.setWidth x).combFilters ch i).feedback = (r.combFilters ch i).feedback
    ∧ ((r.setDiffusionThrust x).combFilters ch i).feedback = (r.combFilters ch i).feedback
    ∧ ((r.setModulationChaos x).combFilters ch i).feedback
        = (r.combFilters ch i).feedback := by
  have hjd : jlimit (0.5 : ℝ) 30 d = d := jlimit_of_le hd1 hd2
  have hfb : ((r.setDecay d).combFilters ch i).feedback
      = jlimit 0 0.999 (jlimit 0 0.998
          (Real.rpow 10
            (-3 * ((combDelayTimesMs i + (if ch = 0 then 0 else 1.7)) / 1000)
              / jlimit 0.5 30 d))) := by
    simp only [AlgorithmicReverb.setDecay, AlgorithmicReverb.updateDecay]
    rw [if_pos (show ch < 2 ∧ i < 8 from ⟨hch, hi⟩)]
    rfl
  have hcollapse : ∀ y : ℝ, jlimit (0 : ℝ) 0.999 (jlimit 0 0.998 y) = jlimit 0 0.998 y :=
    fun y => jlimit_of_le (le_jlimit y (by norm_num))
      ((jlimit_le y (by norm_num)).trans (by norm_num))
  rw [hfb, hcollapse, hjd]
  refine ⟨rfl, ?_, rfl, rfl, rfl, rfl, rfl, rfl⟩
  exact lt_of_le_of_lt (jlimit_le _ (by norm_num)) (by norm_num)

/-- C1 witness: at decay 5 s the (0,0) comb unit's stored feedback is
strictly below 1. -/
theorem setDecay_comb_feedback_witness :
    ((AlgorithmicReverb.default.setDecay 5).combFilters 0 0).feedback < 1 :=
  (setDecay_comb_feedback AlgorithmicReverb.default 5 0 0 0 (by norm_num) (by norm_num)
    (by norm_num) (by norm_num)).2.1

/-- C5 counterexample: `reset()` does not write `decayEnvelope`, so a
reverb whose envelope is 1 still reads 1 (not 0) from
`getDecayEnvelope()` immediately after `reset()`. -/
theorem reset_decayEnvelope_cex :
    ({ AlgorithmicReverb.default with
        decayEnvelope := 1 } : AlgorithmicReverb).reset.getDecayEnvelope ≠ 0 := by
  show (1 : ℝ) ≠ 0
  norm_num

/-- C5 (amended): `reset()` zeroes all delay-buffer contents and all
filter/phase state of the reverb core without reallocating (all buffer
lengths are preserved and parameters are untouched), but leaves the
`decayEnvelope` visualization register unchanged rather than zeroing
it. -/
theorem reset_spec (r : AlgorithmicReverb) :
    (∀ ch k, (r.reset.preDelayBuffer ch).getD k 0 = 0)
    ∧ (∀ ch, (r.reset.preDelayBuffer ch).length = (r.preDelayBuffer ch).length)
    ∧ r.reset.preDelayWriteIndex = 0
    ∧ (∀ ch i, ch < 2 → i < 8 →
        (r.reset.combFilters ch i).zeroState
        ∧ (r.reset.combFilters ch i).buffer.length = (r.combFilters ch i).buffer.length
        ∧ (r.reset.combFilters ch i).writeIndex = 0
        ∧ (r.reset.combFilters ch i).feedback = (r.combFilters ch i).feedback
        ∧ (r.reset.combFilters ch i).damping = (r.combFilters ch i).damping
        ∧ (r.reset.combFilters ch i).currentDelay = (r.combFilters ch i).currentDelay)
    ∧ (∀ ch i, ch < 2 → i < 8 →
        zeroL (r.reset.diffusionNetwork.allpassFilters ch i).buffer
        ∧ (r.reset.diffusionNetwork.allpassFilters ch i).buffer.length
            = (r.diffusionNetwork.allpassFilters ch i).buffer.length)
    ∧ r.reset.highCutFilter.zeroState
    ∧ r.reset.lowCutFilter.zeroState
    ∧ r.reset.diffusionNetwork.lowMidFilter.zeroState
    ∧ (∀ j, r.reset.modulationEngine.smoothedOutputs j = 0)
    ∧ r.reset.decayEnvelope = r.decayEnvelope := by
  refine ⟨?_, ?_, rfl, ?_, ?_, ?_, ?_, ?_, ?_, rfl⟩
  · intro ch k
    exact zeroL_getD (zeroL_replicate _) k
  · intro ch
    exact List.length_replicate ..
  · intro ch i hch hi
    have hc : r.reset.combFilters ch i = (r.combFilters ch i).reset := by
      show (if ch < 2 ∧ i < 8 then (r.combFilters ch i).reset else r.combFilters ch i) = _
      rw [if_pos ⟨hch, hi⟩]
    rw [hc]
    exact ⟨⟨zeroL_replicate _, rfl⟩, List.length_replicate .., rfl, rfl, rfl, rfl⟩
  · intro ch i hch hi
    have hd : r.reset.diffusionNetwork.allpassFilters ch i
        = (r.diffusionNetwork.allpassFilters ch i).reset := by
      show (if ch < 2 ∧ i < 8 then (r.diffusionNetwork.allpassFilters ch i).reset
            else r.diffusionNetwork.allpassFilters ch i) = _
      rw [if_pos ⟨hch, hi⟩]
    rw [hd]
    exact ⟨zeroL_replicate _, List.length_replicate ..⟩
  · exact fun ch => ⟨rfl, rfl⟩
  · exact fun ch => ⟨rfl, rfl⟩
  · exact fun ch => ⟨rfl, rfl⟩
  · exact fun j => rfl

/-- C5 witness: at the default state, reset zeroes the comb write index
and leaves the decay envelope value unchanged. -/
theorem reset_spec_witness :
    (AlgorithmicReverb.default.reset.combFilters 0 0).writeIndex = 0
    ∧ AlgorithmicReverb.default.reset.decayEnvelope
        = AlgorithmicReverb.default.decayEnvelope :=
  ⟨((reset_spec AlgorithmicReverb.default).2.2.2.1 0 0 (by norm_num) (by norm_num)).2.2.1,
   (reset_spec AlgorithmicReverb.default).2.2.2.2.2.2.2.2.2⟩

/-- Sample-wise characterization of the width-transform loop: positions
below the loop bound on channels 0/1 hold the mid/side transform of the
original buffer contents; every other position is untouched. -/
theorem widthLoop_data (w : ℝ) (b : AudioBuffer) (n : ℕ) :
    ∀ ch i, (iterUpTo (widthStep w) n b).data ch i
      = if (ch = 0 ∨ ch = 1) ∧ i < n then
          (if ch = 0
           then (b.data 0 i + b.data 1 i) * 0.5 + (b.data 0 i - b.data 1 i) * 0.5 * w
           else (b.data 0 i + b.data 1 i) * 0.5 - (b.data 0 i - b.data 1 i) * 0.5 * w)
        else b.data ch i := by
  induction n with
  | zero =>
    intro ch i
    simp [iterUpTo]
  | succ n ih =>
    intro ch i
    have h0 : (iterUpTo (widthStep w) n b).data 0 n = b.data 0 n := by
      rw [ih 0 n]; simp
    have h1 : (iterUpTo (widthStep w) n b).data 1 n = b.data 1 n := by
      rw [ih 1 n]; simp
    simp only [iterUpTo, widthStep, AudioBuffer.setSample, AudioBuffer.getSample]
    rw [h0, h1]
    by_cases hi : i = n
    · subst hi
      by_cases hch0 : ch = 0
      · subst hch0
        rw [if_neg (by simp), if_pos ⟨rfl, rfl⟩, if_pos ⟨Or.inl rfl, Nat.lt_succ_self i⟩,
            if_pos rfl]
      · by_cases hch1 : ch = 1
        · subst hch1
          rw [if_pos ⟨rfl, rfl⟩, if_pos ⟨Or.inr rfl, Nat.lt_succ_self i⟩, if_neg (by norm_num)]
        · rw [if_neg (by tauto), if_neg (by tauto), ih ch i,
              if_neg (by tauto), if_neg (by tauto)]
    · rw [if_neg (by tauto), if_neg (by tauto), ih ch i]
      by_cases hcond : (ch = 0 ∨ ch = 1) ∧ i < n
      · have hc2 : (ch = 0 ∨ ch = 1) ∧ i < n + 1 := ⟨hcond.1, by omega⟩
        rw [if_pos hcond, if_pos hc2]
      · have hcond' : ¬ ((ch = 0 ∨ ch = 1) ∧ i < n + 1) := by
          rintro ⟨hc, hlt⟩
          exact hcond ⟨hc, by omega⟩
        rw [if_neg hcond, if_neg hcond']

/-- When the transform is engaged (`|width - 1| > 0.01`), every in-range
sample carries the mid/side formula. -/
theorem applyWidth_data (w : ℝ) (b : AudioBuffer) (i : ℕ) (hi : i < b.numSamples)
    (hw : 0.01 < |w - 1|) :
    (applyWidth w b).data 0 i
      = (b.data 0 i + b.data 1 i) * 0.5 + (b.data 0 i - b.data 1 i) * 0.5 * w
    ∧ (applyWidth w b).data 1 i
      = (b.data 0 i + b.data 1 i) * 0.5 - (b.data 0 i - b.data 1 i) * 0.5 * w := by
  unfold applyWidth
  rw [if_pos hw]
  constructor
  · rw [widthLoop_data w b b.numSamples 0 i, if_pos ⟨Or.inl rfl, hi⟩, if_pos rfl]
  · rw [widthLoop_data w b b.numSamples 1 i, if_pos ⟨Or.inr rfl, hi⟩, if_neg (by norm_num)]

/-- C6 counterexample: setWidth stores 1.005 (within [0,2]), but pipeline
step 5 skips the transform whenever `|width - 1| ≤ 0.01`, so with wet
samples L = 1, R = 0 the left output stays 1 while the claimed formula
`mid + side` gives 1.0025: the claimed per-sample equation fails. -/
theorem width_deadzone_cex :
    (AlgorithmicReverb.default.setWidth 1.005).width = 1.005
    ∧ (applyWidth ((AlgorithmicReverb.default.setWidth 1.005).width)
        ⟨2, 1, fun ch i => if ch = 0 ∧ i = 0 then 1 else 0⟩).data 0 0 = 1
    ∧ ((1 : ℝ) + 0) * 0.5 + ((1 : ℝ) - 0) * 0.5 * 1.005 ≠ 1 := by
  have hw : (AlgorithmicReverb.default.setWidth 1.005).width = 1.005 := by
    show jlimit (0 : ℝ) 2 1.005 = 1.005
    exact jlimit_of_le (by norm_num) (by norm_num)
  refine ⟨hw, ?_, by norm_num⟩
  rw [hw]
  unfold applyWidth
  rw [if_neg (by rw [show (1.005 : ℝ) - 1 = 0.005 by norm_num,
        abs_of_pos (by norm_num)]; norm_num)]
  show (if ((0 : ℕ) = 0 ∧ (0 : ℕ) = 0) then (1 : ℝ) else 0) = 1
  norm_num

/-- C6 (amended): pipeline step 5 applies the mid/side width transform
`L' = mid + side`, `R' = mid - side` with `mid = (L+R)/2`,
`side = (L-R)/2*width` only when `|width - 1| > 0.01`, and leaves the
block unchanged otherwise; the stored width is clamped to [0,2];
width 0 makes the two output channels identical (= mid), width 1 leaves
the block unchanged (the transform is skipped and the formula is the
identity there anyway), and width 2 doubles the side component (the L-R
difference) relative to width 1. -/
theorem width_transform_spec (r : AlgorithmicReverb) (w : ℝ) (b : AudioBuffer) (i : ℕ)
    (hi : i < b.numSamples) :
    (0 ≤ (r.setWidth w).width ∧ (r.setWidth w).width ≤ 2)
    ∧ (0.01 < |(r.setWidth w).width - 1| →
        (applyWidth (r.setWidth w).width b).data 0 i
          = (b.data 0 i + b.data 1 i) * 0.5
            + (b.data 0 i - b.data 1 i) * 0.5 * (r.setWidth w).width
        ∧ (applyWidth (r.setWidth w).width b).data 1 i
          = (b.data 0 i + b.data 1 i) * 0.5
            - (b.data 0 i - b.data 1 i) * 0.5 * (r.setWidth w).width)
    ∧ (|(r.setWidth w).width - 1| ≤ 0.01 → applyWidth (r.setWidth w).width b = b)
    ∧ (applyWidth 0 b).data 0 i = (applyWidth 0 b).data 1 i
    ∧ applyWidth 1 b = b
    ∧ (applyWidth 2 b).data 0 i - (applyWidth 2 b).data 1 i
        = 2 * ((applyWidth 1 b).data 0 i - (applyWidth 1 b).data 1 i) := by
  have habs0 : (0.01 : ℝ) < |(0 : ℝ) - 1| := by
    rw [show (0 : ℝ) - 1 = -1 by norm_num, abs_neg, abs_one]
    norm_num
  have habs2 : (0.01 : ℝ) < |(2 : ℝ) - 1| := by
    rw [show (2 : ℝ) - 1 = 1 by norm_num, abs_one]
    norm_num
  have hone : applyWidth 1 b = b := by
    unfold applyWidth
    rw [if_neg (by rw [sub_self, abs_zero]; norm_num)]
  have h0 := applyWidth_data 0 b i hi habs0
  have h2 := applyWidth_data 2 b i hi habs2
  refine ⟨⟨le_jlimit w (by norm_num), jlimit_le w (by norm_num)⟩, ?_, ?_, ?_, hone, ?_⟩
  · intro hw
    exact applyWidth_data _ b i hi hw
  · intro hle
    unfold applyWidth
    rw [if_neg (not_lt.mpr hle)]
  · rw [h0.1, h0.2]
    ring
  · rw [h2.1, h2.2, hone]
    ring

/-- C6 witness: on a one-sample block with L = 1, R = 0, width 2 doubles
the L-R difference relative to width 1. -/
theorem width_transform_spec_witness :
    (applyWidth 2 (⟨2, 1, fun ch i => if ch = 0 ∧ i = 0 then 1 else 0⟩ : AudioBuffer)).data 0 0
      - (applyWidth 2
          (⟨2, 1, fun ch i => if ch = 0 ∧ i = 0 then 1 else 0⟩ : AudioBuffer)).data 1 0
      = 2 * ((applyWidth 1
              (⟨2, 1, fun ch i => if ch = 0 ∧ i = 0 then 1 else 0⟩ : AudioBuffer)).data 0 0
        - (applyWidth 1
            (⟨2, 1, fun ch i => if ch = 0 ∧ i = 0 then 1 else 0⟩ : AudioBuffer)).data 1 0) :=
  (width_transform_spec AlgorithmicReverb.default 1
    (⟨2, 1, fun ch i => if ch = 0 ∧ i = 0 then 1 else 0⟩ : AudioBuffer) 0
    Nat.one_pos).2.2.2.2.2

/-- C10 witness: out-of-range indices 9 and -1 give 0; index 3 gives the
third smoothed output register. -/
theorem getModulation_total_witness :
    ModulationEngine.default.getModulation 9 = 0
    ∧ ModulationEngine.default.getModulation (-1) = 0
    ∧ ModulationEngine.default.getModulation 3
        = ModulationEngine.default.smoothedOutputs ⟨3, by norm_num⟩ :=
  ⟨(getModulation_total ModulationEngine.default 9).1 (Or.inr (by norm_num)),
   (getModulation_total ModulationEngine.default (-1)).1 (Or.inl (by norm_num)),
   (getModulation_total ModulationEngine.default 3).2 (by norm_num) (by norm_num)⟩

/-- C7: for every input sample, `CombFilter::process` returns the
interpolated read at `currentDelay` (not a mix including the current
input), updates `filterState` to `delayed*(1-damping) + filterState*damping`,
writes `input + filterState*feedback` into the delay line at the write
index, advances the write index modulo the buffer length, and leaves the
delay/feedback/damping parameters unchanged. -/
theorem combFilter_process_spec (c : CombFilter) (input : ℝ) :
    (c.process input).2 = c.readInterpolated c.currentDelay
    ∧ (c.process input).1.filterState
        = c.readInterpolated c.currentDelay * (1 - c.damping) + c.filterState * c.damping
    ∧ (c.process input).1.buffer
        = c.buffer.set c.writeIndex (input + (c.process input).1.filterState * c.feedback)
    ∧ (c.process input).1.writeIndex = (c.writeIndex + 1) % c.buffer.length
    ∧ (c.process input).1.currentDelay = c.currentDelay
    ∧ (c.process input).1.feedback = c.feedback
    ∧ (c.process input).1.damping = c.damping := by
  refine ⟨rfl, rfl, ?_, rfl, rfl, rfl, rfl⟩
  rfl

/-- C8: `processModulated` of both the comb unit and the allpass unit uses
`jlimit 1 maxDelay (currentDelay + offset)` as the read delay for that call
only: the stored `currentDelay`, `feedback` and (for the comb) `damping`
are unchanged by the call, so a subsequent `process` call reads at the
unmodulated `currentDelay`. -/
theorem processModulated_frame (c : CombFilter) (a : AllpassFilter) (input modOffset y : ℝ) :
    (c.processModulated input modOffset).2
        = c.readInterpolated (jlimit 1 (c.maxDelay : ℝ) (c.currentDelay + modOffset))
    ∧ (c.processModulated input modOffset).1.currentDelay = c.currentDelay
    ∧ (c.processModulated input modOffset).1.feedback = c.feedback
    ∧ (c.processModulated input modOffset).1.damping = c.damping
    ∧ (c.processModulated input modOffset).1.maxDelay = c.maxDelay
    ∧ ((c.processModulated input modOffset).1.process y).2
        = (c.processModulated input modOffset).1.readInterpolated c.currentDelay
    ∧ (a.processModulated input modOffset).2
        = a.readInterpolated (jlimit 1 (a.maxDelay : ℝ) (a.currentDelay + modOffset))
          - a.feedback * input
    ∧ (a.processModulated input modOffset).1.currentDelay = a.currentDelay
    ∧ (a.processModulated input modOffset).1.feedback = a.feedback
    ∧ (a.processModulated input modOffset).1.maxDelay = a.maxDelay
    ∧ ((a.processModulated input modOffset).1.process y).2
        = (a.processModulated input modOffset).1.readInterpolated a.currentDelay
          - a.feedback * y := by
  refine ⟨rfl, rfl, rfl, rfl, rfl, rfl, ?_, rfl, rfl, rfl, ?_⟩
  · show -a.feedback * input + _ = _
    ring
  · show -a.feedback * y
          + (a.processModulated input modOffset).1.readInterpolated a.currentDelay
        = (a.processModulated input modOffset).1.readInterpolated a.currentDelay
          - a.feedback * y
    ring

end Cosmos
